import Mathlib

/-!
Verification of the client-side dataset analysis routines of the quantivo
dashboard (field inference, date-range filtering and chart aggregation,
all from the user dashboard component).

The embedding models JavaScript scalar values as an inductive type with
integer numbers (the dataset JSON carries plain numbers; no claim under
scrutiny depends on floating-point rounding), records as association lists
in key insertion order, and JavaScript objects used as accumulators as
association lists in key creation order.  Object.entries enumeration is
modelled separately (jsEntries): keys that are canonical array indices
(numeric strings such as "5") come first in ascending numeric order,
then the remaining keys in creation order, as ECMA-262 prescribes.
Array.prototype.sort is modelled by a stable insertion sort whose
comparator follows SortCompare: a comparator result of NaN (here, a
bucket label that does not parse as a date) counts as equal; for such
inputs the comparator is inconsistent and ECMA-262 leaves the overall
order implementation-defined, so the model fixes one conformant
behavior.  The host runtime date functions (Date parsing and the en-US
short-month/two-digit-year formatter) are abstracted as a JSRuntime
parameter; a concrete instance modelling them on the formats this code
produces is provided for evaluation.  Time is UTC milliseconds since the
epoch, with no DST, so the setDate arithmetic of the source is exact
day-length subtraction.
-/

namespace Quantivo

/-- A JavaScript scalar value as it occurs in a dataset record
(string, number, boolean, null) plus undefined for absent fields. -/
inductive Value where
  | vStr (s : String)
  | vNum (n : Int)
  | vBool (b : Bool)
  | vNull
  | vUndef
deriving DecidableEq

/-- A data record: an object mapping field names to scalar values,
kept in key insertion order (the DataPoint interface of the source). -/
abbrev Record := List (String × Value)

/-- Property read item[key]: the first binding of the key, or undefined. -/
def getField (r : Record) (key : String) : Value :=
  match r.find? (fun p => decide (p.1 = key)) with
  | some p => p.2
  | none => Value.vUndef

/-- Object.keys of a record, in insertion order. -/
def recordKeys (r : Record) : List String :=
  r.map (fun p => p.1)

/-- The filter val !== null && val !== undefined from analyzeDataStructure. -/
def isPresent : Value → Bool
  | Value.vNull => false
  | Value.vUndef => false
  | _ => true

/-- typeof val === "number". -/
def isNumber : Value → Bool
  | Value.vNum _ => true
  | _ => false

/-- typeof val === "boolean". -/
def isBoolean : Value → Bool
  | Value.vBool _ => true
  | _ => false

/-- JavaScript String(v) on a scalar value. -/
def jsToString : Value → String
  | Value.vStr s => s
  | Value.vNum n => toString n
  | Value.vBool true => "true"
  | Value.vBool false => "false"
  | Value.vNull => "null"
  | Value.vUndef => "undefined"

/-- JavaScript truthiness of a scalar value. -/
def jsTruthy : Value → Bool
  | Value.vStr s => decide (s ≠ "")
  | Value.vNum n => decide (n ≠ 0)
  | Value.vBool b => b
  | Value.vNull => false
  | Value.vUndef => false

/-- The pattern typeof value === "number" ? value : 0 used by the aggregator. -/
def asNum : Value → Int
  | Value.vNum n => n
  | _ => 0

/-- JavaScript toLowerCase, modelled character-wise (exact on ASCII names). -/
def jsToLower (s : String) : String :=
  String.mk (s.data.map Char.toLower)

/-- Contiguous-substring search: JavaScript String.prototype.includes. -/
def strIncludes (pat : List Char) : List Char → Bool
  | [] => List.isPrefixOf pat []
  | c :: cs => List.isPrefixOf pat (c :: cs) || strIncludes pat cs

/-- key.toLowerCase().includes("date"). -/
def nameHasDate (key : String) : Bool :=
  strIncludes "date".data (jsToLower key).data

/-- The regular expression test value.match(/^\d{4}-\d{2}-\d{2}/). -/
def isoDateShape (s : String) : Bool :=
  match s.data with
  | y1 :: y2 :: y3 :: y4 :: h1 :: m1 :: m2 :: h2 :: d1 :: d2 :: _ =>
      y1.isDigit && y2.isDigit && y3.isDigit && y4.isDigit && (h1 == '-') &&
      m1.isDigit && m2.isDigit && (h2 == '-') && d1.isDigit && d2.isDigit
  | _ => false

/-- Milliseconds per day. -/
def msPerDay : Int := 86400000

/-- Civil date (year, month, day) from a count of days since 1970-01-01,
proleptic Gregorian calendar (the standard days-to-civil algorithm). -/
def civilFromDays (z0 : Int) : Int × Int × Int :=
  let z := z0 + 719468
  let era := Int.fdiv z 146097
  let doe := z - era * 146097
  let yoe := Int.fdiv (doe - Int.fdiv doe 1460 + Int.fdiv doe 36524 - Int.fdiv doe 146096) 365
  let y := yoe + era * 400
  let doy := doe - (365 * yoe + Int.fdiv yoe 4 - Int.fdiv yoe 100)
  let mp := Int.fdiv (5 * doy + 2) 153
  let d := doy - Int.fdiv (153 * mp + 2) 5 + 1
  let m := mp + (if mp < 10 then 3 else -9)
  (if m ≤ 2 then y + 1 else y, m, d)

/-- Days since 1970-01-01 from a civil date; day-of-month overflow
normalizes forward exactly as JavaScript Date setters do. -/
def daysFromCivil (y m d : Int) : Int :=
  let yy := if m ≤ 2 then y - 1 else y
  let era := Int.fdiv yy 400
  let yoe := yy - era * 400
  let mp := Int.fmod (m + 9) 12
  let doy := Int.fdiv (153 * mp + 2) 5 + d - 1
  let doe := yoe * 365 + Int.fdiv yoe 4 - Int.fdiv yoe 100 + doy
  era * 146097 + doe - 719468

/-- startDate.setFullYear(now.getFullYear() - 1): same calendar date one
year earlier (Feb 29 normalizing to Mar 1), time of day preserved. -/
def subYearMs (t : Int) : Int :=
  let days := Int.fdiv t msPerDay
  let rem := t - days * msPerDay
  let c := civilFromDays days
  daysFromCivil (c.1 - 1) c.2.1 c.2.2 * msPerDay + rem

/-- The host runtime date functions the component calls: parse is
new Date(string).getTime() (none for an Invalid Date), fmt is
toLocaleDateString("en-US", month short, year 2-digit). -/
structure JSRuntime where
  parse : String → Option Int
  fmt : Int → String

/-- The isValidDate helper of the source: a string that parses as a date
and matches the ISO date prefix pattern. -/
def isValidDate (rt : JSRuntime) : Value → Bool
  | Value.vStr s => (rt.parse s).isSome && isoDateShape s
  | _ => false

/-- The four inferred field kinds of the FieldInfo interface. -/
inductive FType where
  | number
  | boolean
  | date
  | string
deriving DecidableEq

/-- An inferred field descriptor: name, kind and bounded sample values. -/
structure FieldInfo where
  name : String
  type : FType
  values : List Value
deriving DecidableEq

/-- Iteration of JavaScript Set insertion: keep each element that has not
been seen yet, in encounter order. -/
def jsSetAux {α : Type} [DecidableEq α] (seen : List α) : List α → List α
  | [] => []
  | v :: vs => if v ∈ seen then jsSetAux seen vs else v :: jsSetAux (v :: seen) vs

/-- Spread of a JavaScript Set built from a list: deduplication keeping the
first occurrence of each element, in encounter order. -/
def jsSetList {α : Type} [DecidableEq α] (l : List α) : List α :=
  jsSetAux [] l

/-- First-occurrence deduplication in filter form, an equivalent
formulation of jsSetList that recurses on shrinking lists and is
convenient in proofs. -/
def dedupFirst {α : Type} [DecidableEq α] : List α → List α
  | [] => []
  | v :: vs => v :: dedupFirst (vs.filter (fun w => decide (w ≠ v)))
termination_by l => l.length
decreasing_by
  simp only [List.length_cons]
  exact Nat.lt_succ_of_le (List.length_filter_le _ _)

/-- All present (non-null, non-undefined) values of one field across the
record sequence, in record order. -/
def colValues (data : List Record) (key : String) : List Value :=
  (data.map (fun item => getField item key)).filter isPresent

/-- The ordered kind checks of analyzeDataStructure. -/
def inferKind (rt : JSRuntime) (key : String) (vals : List Value) : FType :=
  if vals.all isNumber then FType.number
  else if vals.all isBoolean then FType.boolean
  else if nameHasDate key || isValidDate rt (vals.headD Value.vUndef) then FType.date
  else FType.string

/-- Field inference of analyzeDataStructure: for each key of the first
record, collect the present values over all records, skip the field when
none exist, classify its kind, and store the first 50 distinct values. -/
def analyzeDataStructure (rt : JSRuntime) (data : List Record) : List FieldInfo :=
  match data with
  | [] => []
  | sampleItem :: _ =>
      (recordKeys sampleItem).filterMap (fun key =>
        let vals := colValues data key
        if vals.isEmpty then none
        else some ⟨key, inferKind rt key vals, (jsSetList vals).take 50⟩)

/-- fields.filter(f => f.type === "number"). -/
def numericFieldsOf (fields : List FieldInfo) : List FieldInfo :=
  fields.filter (fun f => decide (f.type = FType.number))

/-- fields.filter(f => f.type === "string" && f.values.length < 20 && f.values.length > 1). -/
def stringFieldsOf (fields : List FieldInfo) : List FieldInfo :=
  fields.filter (fun f =>
    decide (f.type = FType.string) && decide (f.values.length < 20) && decide (f.values.length > 1))

/-- fields.filter(f => f.type === "date"). -/
def dateFieldsOf (fields : List FieldInfo) : List FieldInfo :=
  fields.filter (fun f => decide (f.type = FType.date))

/-- The selection state: chosen metrics, chosen dimensions, and the
date-range token (empty string when none selected). -/
structure Selection where
  metrics : List String
  dimensions : List String
  dateRange : String
deriving DecidableEq

/-- The selection side effect of analyzeDataStructure: auto-select the
first numeric field as sole metric, the first low-cardinality string field
as sole dimension, and clear the date range. -/
def analyzeAutoSelect (fields : List FieldInfo) : Selection :=
  ⟨ match numericFieldsOf fields with
    | [] => []
    | f :: _ => [f.name]
  , match stringFieldsOf fields with
    | [] => []
    | f :: _ => [f.name]
  , "" ⟩

/-- The selection reset performed by handleDataSetChange. -/
def resetSelection : Selection := ⟨[], [], ""⟩

/-- Net selection state after switching the active dataset:
handleDataSetChange clears all selections, then loading the new content
runs analyzeDataStructure, which on nonempty data auto-selects defaults
and on empty data returns early leaving the cleared state. -/
def switchDataSet (rt : JSRuntime) (newData : List Record) : Selection :=
  if newData.isEmpty then resetSelection
  else analyzeAutoSelect (analyzeDataStructure rt newData)

/-- The cutoff startDate computed by the date-range switch of applyFilters,
relative to the current time in UTC milliseconds; an unrecognized token
leaves startDate at now (the switch has no default case). -/
def cutoffFor (now : Int) (tok : String) : Int :=
  if tok = "last-7-days" then now - 7 * msPerDay
  else if tok = "last-30-days" then now - 30 * msPerDay
  else if tok = "last-90-days" then now - 90 * msPerDay
  else if tok = "last-year" then subYearMs now
  else now

/-- The filter engine applyFilters: when a date-range token is selected and
a date field was inferred, keep the records whose parsed date value of the
first date field lies in the closed interval from the cutoff to now
(an unparseable value fails both NaN comparisons); otherwise identity. -/
def applyFilters (rt : JSRuntime) (now : Int) (fields : List FieldInfo)
    (dateRange : String) (data : List Record) : List Record :=
  if dateRange ≠ "" ∧ dateFieldsOf fields ≠ [] then
    match dateFieldsOf fields with
    | [] => data
    | df :: _ =>
        let startDate := cutoffFor now dateRange
        data.filter (fun item =>
          match rt.parse (jsToString (getField item df.name)) with
          | none => false
          | some t => decide (startDate ≤ t) && decide (t ≤ now))
  else data

/-- Accumulation step acc[k] = (acc[k] ?? 0) + v on an object modelled as
an association list in key insertion order. -/
def accumAssoc (l : List (String × Int)) (k : String) (v : Int) : List (String × Int) :=
  if l.any (fun p => decide (p.1 = k)) then
    l.map (fun p => if p.1 = k then (p.1, p.2 + v) else p)
  else l ++ [(k, v)]

/-- Plain assignment acc[k] = v on an object modelled as an association
list in key insertion order. -/
def putAssoc (l : List (String × Int)) (k : String) (v : Int) : List (String × Int) :=
  if l.any (fun p => decide (p.1 = k)) then
    l.map (fun p => if p.1 = k then (p.1, v) else p)
  else l ++ [(k, v)]

/-- Association-list read acc[k]. -/
def lookupA (l : List (String × Int)) (k : String) : Option Int :=
  match l.find? (fun p => decide (p.1 = k)) with
  | some p => some p.2
  | none => none

/-- values.reduce((sum, val) => sum + val, 0) over the metric column with
non-numeric values as zero. -/
def metricTotal (data : List Record) (m : String) : Int :=
  (data.map (fun item => asNum (getField item m))).foldl (fun sum val => sum + val) 0

/-- The metrics object of generateChartData: one grand total per selected
metric. -/
def metricsOf (selMetrics : List String) (data : List Record) : List (String × Int) :=
  selMetrics.foldl (fun acc m => putAssoc acc m (metricTotal data m)) []

/-- new Date(String(v)).toLocaleDateString("en-US", month short, year
2-digit): the line-chart bucket label of a date value. -/
def labelOf (rt : JSRuntime) (v : Value) : String :=
  match rt.parse (jsToString v) with
  | some t => rt.fmt t
  | none => "Invalid Date"

/-- The groupedByDate reduce of generateChartData: records with a falsy
date value are skipped, the rest accumulate the primary metric under
their month-year bucket label. -/
def groupLine (rt : JSRuntime) (dfName pm : String) (data : List Record) : List (String × Int) :=
  data.foldl (fun acc item =>
    let dateValue := getField item dfName
    if jsTruthy dateValue then
      accumAssoc acc (labelOf rt dateValue) (asNum (getField item pm))
    else acc) []

/-- The pie grouping key String(dimensionValue || "Unknown"). -/
def pieKey (v : Value) : String :=
  jsToString (if jsTruthy v then v else Value.vStr "Unknown")

/-- The groupedByDimension reduce of generateChartData. -/
def groupPie (dimName pm : String) (data : List Record) : List (String × Int) :=
  data.foldl (fun acc item =>
    let dimensionValue := getField item dimName
    accumAssoc acc (pieKey dimensionValue) (asNum (getField item pm))) []

/-- Canonical array-index test of ECMA-262: a key is an array index when
it is the string "0" or a digits-only string without a leading zero whose
numeric value is below 2^32 - 1. -/
def arrayIndex? (s : String) : Option Nat :=
  match s.data with
  | [] => none
  | c :: cs =>
      if c = '0' then (if cs = [] then some 0 else none)
      else if (c :: cs).all Char.isDigit then
        let n := (c :: cs).foldl (fun acc d => acc * 10 + (d.toNat - 48)) 0
        if n < 4294967295 then some n else none
      else none

/-- Numeric value an array-index key enumerates under (0 for keys that
are not array indices; used only on the array-index segment). -/
def idxKey (p : String × Int) : Nat :=
  (arrayIndex? p.1).getD 0

/-- Ascending numeric order of array-index keys. -/
def idxOrder (a b : String × Int) : Prop :=
  idxKey a ≤ idxKey b

instance : DecidableRel idxOrder :=
  fun a b => inferInstanceAs (Decidable (idxKey a ≤ idxKey b))

/-- Object.entries enumeration order on an object modelled as an
association list in key creation order: array-index-like keys first in
ascending numeric order, then the remaining keys in creation order. -/
def jsEntries (l : List (String × Int)) : List (String × Int) :=
  List.insertionSort idxOrder (l.filter (fun p => (arrayIndex? p.1).isSome))
    ++ l.filter (fun p => !(arrayIndex? p.1).isSome)

/-- SortCompare of the line-chart bucket comparator
new Date(a).getTime() - new Date(b).getTime(): nonpositive when both
labels parse and the first is not later; a comparison involving an
Invalid Date label returns NaN, which SortCompare treats as equal, so it
constrains nothing (true both ways). -/
def sortCompareLe (rt : JSRuntime) (a b : String × Int) : Bool :=
  match rt.parse a.1, rt.parse b.1 with
  | some ta, some tb => decide (ta ≤ tb)
  | _, _ => true

/-- The keep-in-order relation of the line-chart bucket sort.  When every
label parses this is a consistent total preorder and the sort result is
the unique stable ascending order; with an unparseable label the
comparator is inconsistent and ECMA-262 leaves the order
implementation-defined — the stable insertion sort below is one
conformant behavior. -/
def lineLe (rt : JSRuntime) (a b : String × Int) : Prop :=
  sortCompareLe rt a b = true

instance (rt : JSRuntime) : DecidableRel (lineLe rt) :=
  fun a b => inferInstanceAs (Decidable (sortCompareLe rt a b = true))

/-- Proof-side sort key: the parsed time of a label, 0 when unparseable. -/
def timeKeyOf (rt : JSRuntime) (s : String) : Int :=
  (rt.parse s).getD 0

/-- Proof-side total preorder agreeing with lineLe on parseable labels. -/
def timeOrder (rt : JSRuntime) (a b : String × Int) : Prop :=
  timeKeyOf rt a.1 ≤ timeKeyOf rt b.1

instance (rt : JSRuntime) : DecidableRel (timeOrder rt) :=
  fun a b => inferInstanceAs (Decidable (timeKeyOf rt a.1 ≤ timeKeyOf rt b.1))

instance (rt : JSRuntime) : IsTotal (String × Int) (timeOrder rt) :=
  ⟨fun a b => le_total (timeKeyOf rt a.1) (timeKeyOf rt b.1)⟩

instance (rt : JSRuntime) : IsTrans (String × Int) (timeOrder rt) :=
  ⟨fun _ _ _ h1 h2 => le_trans h1 h2⟩

/-- The descending-by-summed-value order of the pie segments, from the
comparator numB - numA. -/
def descOrder (a b : String × Int) : Prop :=
  b.2 ≤ a.2

instance : DecidableRel descOrder :=
  fun a b => inferInstanceAs (Decidable (b.2 ≤ a.2))

instance : IsTotal (String × Int) descOrder :=
  ⟨fun a b => le_total b.2 a.2⟩

instance : IsTrans (String × Int) descOrder :=
  ⟨fun _ _ _ h1 h2 => le_trans h2 h1⟩

/-- The fixed eight-color palette. -/
def COLORS : List String :=
  ["#ef4444", "#10b981", "#8b5cf6", "#f59e0b", "#06b6d4", "#ec4899", "#84cc16", "#f97316"]

/-- COLORS[index % COLORS.length]. -/
def colorAt (i : Nat) : String :=
  COLORS.getD (i % COLORS.length) ""

/-- One line-chart point. -/
structure LinePoint where
  x : String
  y : Int
deriving DecidableEq

/-- One pie-chart segment. -/
structure PieSlice where
  name : String
  value : Int
  color : String
deriving DecidableEq

/-- The ChartData output. -/
structure ChartData where
  lineChart : List LinePoint
  pieChart : List PieSlice
  metrics : List (String × Int)
  categories : List String
deriving DecidableEq

/-- The all-empty chart output. -/
def emptyChart : ChartData := ⟨[], [], [], []⟩

/-- The indexed map of the pie segments onto colored slices:
.map(([name, value], index) => ({name, value, color: COLORS[index % 8]})). -/
def withColorsAux (i : Nat) : List (String × Int) → List PieSlice
  | [] => []
  | p :: ps => ⟨p.1, p.2, colorAt i⟩ :: withColorsAux (i + 1) ps

/-- Colored pie slices starting at index 0. -/
def withColors (l : List (String × Int)) : List PieSlice :=
  withColorsAux 0 l

/-- generateChartData: empty output on empty data or no selected metric;
otherwise per-metric totals, the chronologically sorted month-year line
chart when a date field and primary metric exist, and the descending
pie chart when a primary dimension and primary metric exist. -/
def generateChartData (rt : JSRuntime) (fields : List FieldInfo)
    (selMetrics selDims : List String) (data : List Record) : ChartData :=
  if data.isEmpty || selMetrics.isEmpty then emptyChart
  else
    let mets := metricsOf selMetrics data
    let sortedLine : List (String × Int) :=
      match (dateFieldsOf fields).head?, selMetrics.head? with
      | some df, some pm =>
          if df.name ≠ "" ∧ pm ≠ "" then
            List.insertionSort (lineLe rt) (jsEntries (groupLine rt df.name pm data))
          else []
      | _, _ => []
    let pie : List PieSlice :=
      match selDims.head?, selMetrics.head? with
      | some dim, some pm =>
          if dim ≠ "" ∧ pm ≠ "" then
            withColors (List.insertionSort descOrder (jsEntries (groupPie dim pm data)))
          else []
      | _, _ => []
    ⟨sortedLine.map (fun p => ⟨p.1, p.2⟩), pie, mets, sortedLine.map (fun p => p.1)⟩

/-- Numeric value of an ASCII digit character. -/
def digitVal (c : Char) : Int :=
  Int.ofNat c.toNat - 48

/-- Gregorian leap year test. -/
def isLeap (y : Int) : Bool :=
  (decide (Int.fmod y 4 = 0) && decide (Int.fmod y 100 ≠ 0)) || decide (Int.fmod y 400 = 0)

/-- Days in a civil month. -/
def daysInMonth (y m : Int) : Int :=
  if m = 1 ∨ m = 3 ∨ m = 5 ∨ m = 7 ∨ m = 8 ∨ m = 10 ∨ m = 12 then 31
  else if m = 2 then (if isLeap y then 29 else 28)
  else 30

/-- English short month names. -/
def monthNames : List String :=
  ["Jan", "Feb", "Mar", "Apr", "May", "Jun", "Jul", "Aug", "Sep", "Oct", "Nov", "Dec"]

/-- Month number from a short month name. -/
def monthIdx (s : String) : Option Int :=
  match monthNames.findIdx? (fun n => decide (n = s)) with
  | some i => some (Int.ofNat i + 1)
  | none => none

/-- Parse of a short month plus two-digit year label such as Jan 24, as the
host runtime reads back the labels it formatted (first day of the month in
century 2000). -/
def monthYearParse (s : String) : Option Int :=
  match s.data with
  | [c1, c2, c3, sp, t1, t2] =>
      if (sp == ' ') && t1.isDigit && t2.isDigit then
        match monthIdx (String.mk [c1, c2, c3]) with
        | some m => some (daysFromCivil (2000 + digitVal t1 * 10 + digitVal t2) m 1 * msPerDay)
        | none => none
      else none
  | _ => none

/-- Model of host-runtime date parsing restricted to the two formats this
component produces: a full ISO date YYYY-MM-DD (midnight UTC, invalid
calendar components rejected as JavaScript does for ISO strings) and the
month-year bucket labels; anything else is an Invalid Date. -/
def isoParse (s : String) : Option Int :=
  match s.data with
  | [y1, y2, y3, y4, h1, m1, m2, h2, d1, d2] =>
      if y1.isDigit && y2.isDigit && y3.isDigit && y4.isDigit && (h1 == '-') &&
         m1.isDigit && m2.isDigit && (h2 == '-') && d1.isDigit && d2.isDigit then
        let y := digitVal y1 * 1000 + digitVal y2 * 100 + digitVal y3 * 10 + digitVal y4
        let m := digitVal m1 * 10 + digitVal m2
        let d := digitVal d1 * 10 + digitVal d2
        if 1 ≤ m ∧ m ≤ 12 ∧ 1 ≤ d ∧ d ≤ daysInMonth y m then
          some (daysFromCivil y m d * msPerDay)
        else none
      else none
  | _ => monthYearParse s

/-- Two-digit year component with leading zero. -/
def twoDigitYear (y : Int) : String :=
  let r := Int.fmod y 100
  (if r < 10 then "0" else "") ++ toString r

/-- Model of toLocaleDateString("en-US", month short, year 2-digit) in UTC. -/
def fmtMonthYear (t : Int) : String :=
  let c := civilFromDays (Int.fdiv t msPerDay)
  monthNames.getD (c.2.1.toNat - 1) "Jan" ++ " " ++ twoDigitYear c.1

/-- Concrete host-runtime instance used to evaluate the development on
explicit inputs. -/
def jsRT : JSRuntime := ⟨isoParse, fmtMonthYear⟩

/-- Sample records of the pie-chart scenario in the specification. -/
def pieSample : List Record :=
  [[("cat", Value.vStr "A"), ("amt", Value.vNum 10)],
   [("cat", Value.vStr "B"), ("amt", Value.vNum 30)],
   [("cat", Value.vStr "A"), ("amt", Value.vNum 5)]]

/-- Sample record set whose single record has a falsy date value and a
nonzero metric value. -/
def falsyDateSample : List Record :=
  [[("date", Value.vStr ""), ("amt", Value.vNum 10)]]

/-- Sample record set with dated records around 2024-06-15 (one exactly
on that day, one exactly eight days earlier, one unparseable). -/
def datesSample : List Record :=
  [[("date", Value.vStr "2024-06-15"), ("amt", Value.vNum 10)],
   [("date", Value.vStr "2024-06-07"), ("amt", Value.vNum 3)],
   [("date", Value.vStr "nonsense"), ("amt", Value.vNum 100)],
   [("date", Value.vStr "2024-06-01"), ("amt", Value.vNum 7)]]

/-- Sample record set whose dimension column holds a plain label and a
numeric-string label, with tied metric sums. -/
def tieSample : List Record :=
  [[("cat", Value.vStr "x"), ("amt", Value.vNum 7)],
   [("cat", Value.vStr "5"), ("amt", Value.vNum 7)]]

/-- Sample record set mixing parseable dates with a truthy unparseable
one, encountered between a later and an earlier month. -/
def mixedDates : List Record :=
  [[("date", Value.vStr "2024-05-15"), ("amt", Value.vNum 5)],
   [("date", Value.vStr "nonsense"), ("amt", Value.vNum 7)],
   [("date", Value.vStr "2024-01-10"), ("amt", Value.vNum 3)]]

/-- Sample record set whose date values all parse. -/
def cleanDates : List Record :=
  [[("date", Value.vStr "2024-06-15"), ("amt", Value.vNum 10)],
   [("date", Value.vStr "2024-05-01"), ("amt", Value.vNum 3)],
   [("date", Value.vStr "2024-06-01"), ("amt", Value.vNum 7)]]

/-! Helper lemmas about the Set spread jsSetList and its filter-form
equivalent dedupFirst. -/

theorem dedupFirst_cons {α : Type} [DecidableEq α] (v : α) (vs : List α) :
    dedupFirst (v :: vs) = v :: dedupFirst (vs.filter (fun w => decide (w ≠ v))) := by
  simp [dedupFirst]

theorem mem_dedupFirst {α : Type} [DecidableEq α] (a : α) (l : List α) :
    a ∈ dedupFirst l ↔ a ∈ l := by
  induction l using dedupFirst.induct with
  | case1 => simp [dedupFirst]
  | case2 v vs ih =>
      rw [dedupFirst_cons]
      simp only [List.mem_cons, ih, List.mem_filter, decide_eq_true_eq]
      by_cases hav : a = v
      · simp [hav]
      · simp [hav]

theorem sublist_dedupFirst {α : Type} [DecidableEq α] (l : List α) :
    (dedupFirst l).Sublist l := by
  induction l using dedupFirst.induct with
  | case1 => simp [dedupFirst]
  | case2 v vs ih =>
      rw [dedupFirst_cons, List.cons_sublist_cons]
      exact ih.trans (List.filter_sublist vs)

theorem nodup_dedupFirst {α : Type} [DecidableEq α] (l : List α) :
    (dedupFirst l).Nodup := by
  induction l using dedupFirst.induct with
  | case1 => simp [dedupFirst]
  | case2 v vs ih =>
      rw [dedupFirst_cons]
      refine List.Nodup.cons ?_ ih
      intro hmem
      have := (mem_dedupFirst v _).mp hmem
      simp [List.mem_filter] at this

theorem indexOf_cons_of_ne {α : Type} [DecidableEq α] {c d : α} (t : List α) (h : c ≠ d) :
    List.indexOf c (d :: t) = List.indexOf c t + 1 := by
  rw [List.indexOf_cons_ne t (Ne.symm h)]

theorem indexOf_filter_lt {α : Type} [DecidableEq α] (p : α → Bool) (l : List α) (a b : α)
    (ha : a ∈ l.filter p) (hb : b ∈ l.filter p)
    (h : (l.filter p).indexOf a < (l.filter p).indexOf b) :
    l.indexOf a < l.indexOf b := by
  induction l with
  | nil => simp at ha
  | cons x xs ih =>
      by_cases hpx : p x
      · rw [List.filter_cons_of_pos hpx] at ha hb h
        by_cases hax : a = x
        · subst hax
          have hba : b ≠ a := by
            intro hba
            subst hba
            exact Nat.lt_irrefl _ h
          rw [List.indexOf_cons_self, indexOf_cons_of_ne _ hba]
          exact Nat.succ_pos _
        · have hbx : b ≠ x := by
            intro hbx
            subst hbx
            rw [List.indexOf_cons_self, indexOf_cons_of_ne _ hax] at h
            exact Nat.not_succ_le_zero _ h
          rw [indexOf_cons_of_ne _ hax, indexOf_cons_of_ne _ hbx] at h
          rw [indexOf_cons_of_ne _ hax, indexOf_cons_of_ne _ hbx]
          exact Nat.succ_lt_succ (ih (by simpa [hax] using ha) (by simpa [hbx] using hb) (Nat.lt_of_succ_lt_succ h))
      · rw [List.filter_cons_of_neg hpx] at ha hb h
        have hax : a ≠ x := by
          rintro rfl
          exact hpx (List.mem_filter.mp ha).2
        have hbx : b ≠ x := by
          rintro rfl
          exact hpx (List.mem_filter.mp hb).2
        rw [indexOf_cons_of_ne _ hax, indexOf_cons_of_ne _ hbx]
        exact Nat.succ_lt_succ (ih ha hb h)

theorem pairwise_indexOf_dedupFirst {α : Type} [DecidableEq α] (l : List α) :
    (dedupFirst l).Pairwise (fun a b => l.indexOf a < l.indexOf b) := by
  induction l using dedupFirst.induct with
  | case1 => simp [dedupFirst]
  | case2 v vs ih =>
      rw [dedupFirst_cons]
      refine List.Pairwise.cons ?_ ?_
      · intro b hb
        have hbf := (mem_dedupFirst b _).mp hb
        have hbv : b ≠ v := by
          have := (List.mem_filter.mp hbf).2
          simpa using this
        rw [List.indexOf_cons_self, indexOf_cons_of_ne _ hbv]
        exact Nat.succ_pos _
      · refine List.Pairwise.imp_of_mem ?_ ih
        intro a b hma hmb hlt
        have haf := (mem_dedupFirst a _).mp hma
        have hbf := (mem_dedupFirst b _).mp hmb
        have hav : a ≠ v := by
          have := (List.mem_filter.mp haf).2
          simpa using this
        have hbv : b ≠ v := by
          have := (List.mem_filter.mp hbf).2
          simpa using this
        rw [indexOf_cons_of_ne _ hav, indexOf_cons_of_ne _ hbv]
        exact Nat.succ_lt_succ (indexOf_filter_lt _ vs a b haf hbf hlt)

theorem dedupFirst_append_single {α : Type} [DecidableEq α] (l : List α) (a : α) :
    dedupFirst (l ++ [a]) = if a ∈ l then dedupFirst l else dedupFirst l ++ [a] := by
  induction l using dedupFirst.induct with
  | case1 => simp [dedupFirst]
  | case2 v vs ih =>
      by_cases hav : a = v
      · subst hav
        rw [List.cons_append, dedupFirst_cons, dedupFirst_cons]
        simp [List.filter_append]
      · rw [List.cons_append, dedupFirst_cons, List.filter_append, dedupFirst_cons]
        have hfa : List.filter (fun w => decide (w ≠ v)) [a] = [a] := by
          simp [hav]
        rw [hfa, ih]
        by_cases hmem : a ∈ vs
        · simp [hmem, hav, List.mem_filter]
        · have : a ∉ List.filter (fun w => decide (w ≠ v)) vs := by
            simp [List.mem_filter, hmem]
          simp [hmem, hav, this]

theorem jsSetAux_eq_dedupFirst {α : Type} [DecidableEq α] (seen : List α) (l : List α) :
    jsSetAux seen l = dedupFirst (l.filter (fun w => decide (w ∉ seen))) := by
  induction l generalizing seen with
  | nil => simp [jsSetAux, dedupFirst]
  | cons v vs ih =>
      by_cases hv : v ∈ seen
      · simp only [jsSetAux, if_pos hv]
        rw [List.filter_cons_of_neg (by simp [hv])]
        exact ih seen
      · simp only [jsSetAux, if_neg hv]
        rw [List.filter_cons_of_pos (by simp [hv]), dedupFirst_cons]
        congr 1
        rw [ih (v :: seen), List.filter_filter]
        congr 1
        apply List.filter_congr
        intro x _
        rw [Bool.eq_iff_iff]
        simp only [Bool.and_eq_true, decide_eq_true_eq, List.mem_cons]
        constructor
        · intro hx
          exact ⟨fun he => hx (Or.inl he), fun hs => hx (Or.inr hs)⟩
        · rintro ⟨h1, h2⟩ (he | hs)
          · exact h1 he
          · exact h2 hs

theorem jsSetList_eq_dedupFirst {α : Type} [DecidableEq α] (l : List α) :
    jsSetList l = dedupFirst l := by
  unfold jsSetList
  rw [jsSetAux_eq_dedupFirst]
  congr 1
  rw [List.filter_eq_self]
  intro a _
  simp

theorem mem_jsSetList {α : Type} [DecidableEq α] (a : α) (l : List α) :
    a ∈ jsSetList l ↔ a ∈ l := by
  rw [jsSetList_eq_dedupFirst]
  exact mem_dedupFirst a l

theorem sublist_jsSetList {α : Type} [DecidableEq α] (l : List α) :
    (jsSetList l).Sublist l := by
  rw [jsSetList_eq_dedupFirst]
  exact sublist_dedupFirst l

theorem nodup_jsSetList {α : Type} [DecidableEq α] (l : List α) :
    (jsSetList l).Nodup := by
  rw [jsSetList_eq_dedupFirst]
  exact nodup_dedupFirst l

theorem pairwise_indexOf_jsSetList {α : Type} [DecidableEq α] (l : List α) :
    (jsSetList l).Pairwise (fun a b => l.indexOf a < l.indexOf b) := by
  rw [jsSetList_eq_dedupFirst]
  exact pairwise_indexOf_dedupFirst l

theorem jsSetList_append_single {α : Type} [DecidableEq α] (l : List α) (a : α) :
    jsSetList (l ++ [a]) = if a ∈ l then jsSetList l else jsSetList l ++ [a] := by
  rw [jsSetList_eq_dedupFirst, jsSetList_eq_dedupFirst, dedupFirst_append_single]

/-! Characterization of object accumulation as first-seen keys with
per-key sums. -/

/-- Folding a list of (key, contribution) pairs through accumAssoc,
starting from an empty object. -/
def assocFold (ps : List (String × Int)) : List (String × Int) :=
  ps.foldl (fun acc c => accumAssoc acc c.1 c.2) []

/-- Sum of the contributions carrying a given key. -/
def bucketSum (ps : List (String × Int)) (k : String) : Int :=
  ((ps.filter (fun c => decide (c.1 = k))).map Prod.snd).sum

theorem bucketSum_append_single (ps : List (String × Int)) (c : String × Int) (k : String) :
    bucketSum (ps ++ [c]) k = bucketSum ps k + (if c.1 = k then c.2 else 0) := by
  by_cases h : c.1 = k
  · simp [bucketSum, List.filter_append, h]
  · simp [bucketSum, List.filter_append, h]

theorem bucketSum_of_not_mem (ps : List (String × Int)) (k : String)
    (h : k ∉ ps.map Prod.fst) : bucketSum ps k = 0 := by
  have : ps.filter (fun c => decide (c.1 = k)) = [] := by
    rw [List.filter_eq_nil_iff]
    intro c hc
    simp only [decide_eq_true_eq]
    intro hk
    exact h (List.mem_map.mpr ⟨c, hc, hk⟩)
  simp [bucketSum, this]

theorem assocFold_append_single (ps : List (String × Int)) (c : String × Int) :
    assocFold (ps ++ [c]) = accumAssoc (assocFold ps) c.1 c.2 := by
  simp [assocFold, List.foldl_append]

theorem assocFold_eq (ps : List (String × Int)) :
    assocFold ps = (jsSetList (ps.map Prod.fst)).map (fun k => (k, bucketSum ps k)) := by
  induction ps using List.reverseRecOn with
  | nil => simp [assocFold, jsSetList, jsSetAux]
  | append_singleton ps c ih =>
      rw [assocFold_append_single, ih]
      have hkeys : (ps ++ [c]).map Prod.fst = ps.map Prod.fst ++ [c.1] := by simp
      rw [hkeys, jsSetList_append_single]
      by_cases hmem : c.1 ∈ ps.map Prod.fst
      · have hany : ((jsSetList (ps.map Prod.fst)).map
            (fun k => (k, bucketSum ps k))).any (fun p => decide (p.1 = c.1)) = true := by
          rw [List.any_eq_true]
          exact ⟨(c.1, bucketSum ps c.1),
            List.mem_map.mpr ⟨c.1, (mem_jsSetList _ _).mpr hmem, rfl⟩, by simp⟩
        rw [accumAssoc, if_pos hany, if_pos hmem, List.map_map]
        refine List.map_congr_left ?_
        intro k hk
        by_cases hkc : k = c.1
        · subst hkc
          simp [Function.comp, bucketSum_append_single]
        · have : c.1 ≠ k := fun h => hkc h.symm
          simp [Function.comp, hkc, bucketSum_append_single, this]
      · have hany : ((jsSetList (ps.map Prod.fst)).map
            (fun k => (k, bucketSum ps k))).any (fun p => decide (p.1 = c.1)) = false := by
          rw [List.any_eq_false]
          rintro ⟨k, v⟩ hp
          obtain ⟨k0, hk0, hpe⟩ := List.mem_map.mp hp
          obtain ⟨rfl, _⟩ := Prod.mk.injEq .. ▸ hpe
          simp only [decide_eq_true_eq]
          intro hke
          exact hmem (hke ▸ (mem_jsSetList _ _).mp hk0)
        rw [accumAssoc, if_neg (by simp [hany]), if_neg hmem, List.map_append]
        congr 1
        · refine List.map_congr_left ?_
          intro k hk
          have hk' := (mem_jsSetList _ _).mp hk
          have hkc : c.1 ≠ k := by
            intro h
            exact hmem (h ▸ hk')
          simp [bucketSum_append_single, hkc]
        · have : bucketSum ps c.1 = 0 := bucketSum_of_not_mem ps c.1 hmem
          simp [bucketSum_append_single, this]

theorem assocFold_keys (ps : List (String × Int)) :
    (assocFold ps).map Prod.fst = jsSetList (ps.map Prod.fst) := by
  rw [assocFold_eq, List.map_map]
  exact List.map_id _

theorem mem_assocFold (ps : List (String × Int)) (q : String × Int)
    (h : q ∈ assocFold ps) : q.2 = bucketSum ps q.1 := by
  rw [assocFold_eq] at h
  obtain ⟨k, _, rfl⟩ := List.mem_map.mp h
  rfl

/-! Bridges from the chart groupings to assocFold. -/

/-- The (bucket label, metric contribution) pairs of the truthy-date
records, in record order. -/
def lineContribs (rt : JSRuntime) (dfName pm : String) (data : List Record) :
    List (String × Int) :=
  (data.filter (fun r => jsTruthy (getField r dfName))).map
    (fun r => (labelOf rt (getField r dfName), asNum (getField r pm)))

/-- The (group key, metric contribution) pairs of all records, in record
order. -/
def pieContribs (dimName pm : String) (data : List Record) : List (String × Int) :=
  data.map (fun r => (pieKey (getField r dimName), asNum (getField r pm)))

theorem groupLine_eq (rt : JSRuntime) (dfName pm : String) (data : List Record) :
    groupLine rt dfName pm data = assocFold (lineContribs rt dfName pm data) := by
  suffices h : ∀ acc : List (String × Int),
      data.foldl (fun acc item =>
        let dateValue := getField item dfName
        if jsTruthy dateValue then
          accumAssoc acc (labelOf rt dateValue) (asNum (getField item pm))
        else acc) acc
      = (lineContribs rt dfName pm data).foldl (fun acc c => accumAssoc acc c.1 c.2) acc by
    exact h []
  induction data with
  | nil => intro acc; rfl
  | cons r rest ih =>
      intro acc
      simp only [lineContribs, List.foldl_cons, List.filter_cons] at ih ⊢
      by_cases hr : jsTruthy (getField r dfName)
      · simp only [hr, if_true, List.map_cons, List.foldl_cons]
        exact ih _
      · simp only [hr, if_false]
        exact ih acc

theorem groupPie_eq (dimName pm : String) (data : List Record) :
    groupPie dimName pm data = assocFold (pieContribs dimName pm data) := by
  simp [groupPie, assocFold, pieContribs, List.foldl_map]

theorem groupLine_skips_falsy (rt : JSRuntime) (dfName pm : String) (data : List Record) :
    groupLine rt dfName pm data
      = groupLine rt dfName pm (data.filter (fun r => jsTruthy (getField r dfName))) := by
  rw [groupLine_eq, groupLine_eq]
  unfold lineContribs
  rw [List.filter_filter]
  simp

/-! Lemmas about the metrics object. -/

theorem lookupA_putAssoc_map (k : String) (v : Int) (l : List (String × Int))
    (h : l.any (fun p => decide (p.1 = k)) = true) :
    lookupA (l.map (fun p => if p.1 = k then (p.1, v) else p)) k = some v := by
  induction l with
  | nil => simp at h
  | cons q qs ih =>
      by_cases hq : q.1 = k
      · simp [lookupA, List.find?, hq]
      · have h' : qs.any (fun p => decide (p.1 = k)) = true := by
          rcases List.any_eq_true.mp h with ⟨x, hx, hxk⟩
          rcases List.mem_cons.mp hx with rfl | hx'
          · simp [hq] at hxk
          · exact List.any_eq_true.mpr ⟨x, hx', hxk⟩
        have := ih h'
        simpa [lookupA, List.find?, hq] using this

theorem lookupA_putAssoc_self (l : List (String × Int)) (k : String) (v : Int) :
    lookupA (putAssoc l k v) k = some v := by
  unfold putAssoc
  by_cases h : l.any (fun p => decide (p.1 = k)) = true
  · rw [if_pos h]
    exact lookupA_putAssoc_map k v l h
  · rw [if_neg h]
    have hnone : l.find? (fun p => decide (p.1 = k)) = none := by
      rw [List.find?_eq_none]
      intro x hx hxk
      exact h (List.any_eq_true.mpr ⟨x, hx, hxk⟩)
    simp [lookupA, List.find?_append, hnone, List.find?]

theorem lookupA_map_put_ne (l : List (String × Int)) (k k0 : String) (v : Int)
    (h : k ≠ k0) :
    lookupA (l.map (fun p => if p.1 = k0 then (p.1, v) else p)) k = lookupA l k := by
  induction l with
  | nil => rfl
  | cons q qs ih =>
      rw [List.map_cons]
      by_cases hq0 : q.1 = k0
      · rw [if_pos hq0]
        have hqk : decide (q.1 = k) = false := by
          simp only [decide_eq_false_iff_not]
          intro he
          exact h (he ▸ hq0)
        unfold lookupA
        rw [List.find?_cons_of_neg _ (by simpa using hqk),
          List.find?_cons_of_neg _ (by simpa using hqk)]
        exact ih
      · rw [if_neg hq0]
        by_cases hqk : q.1 = k
        · unfold lookupA
          rw [List.find?_cons_of_pos _ (by simpa using hqk),
            List.find?_cons_of_pos _ (by simpa using hqk)]
        · unfold lookupA
          rw [List.find?_cons_of_neg _ (by simpa using hqk),
            List.find?_cons_of_neg _ (by simpa using hqk)]
          exact ih

theorem lookupA_append_single_ne (l : List (String × Int)) (k k0 : String) (v : Int)
    (h : k ≠ k0) : lookupA (l ++ [(k0, v)]) k = lookupA l k := by
  unfold lookupA
  rw [List.find?_append]
  have hnone : List.find? (fun p => decide (p.1 = k)) [(k0, v)] = none := by
    rw [List.find?_eq_none]
    intro x hx
    rcases List.mem_singleton.mp hx with rfl
    simp only [decide_eq_true_eq]
    exact fun he => h he.symm
  rw [hnone, Option.or_none]

theorem lookupA_putAssoc_ne (l : List (String × Int)) (k k0 : String) (v : Int)
    (h : k ≠ k0) : lookupA (putAssoc l k0 v) k = lookupA l k := by
  unfold putAssoc
  by_cases hany : l.any (fun p => decide (p.1 = k0)) = true
  · rw [if_pos hany]
    exact lookupA_map_put_ne l k k0 v h
  · rw [if_neg hany]
    exact lookupA_append_single_ne l k k0 v h

theorem lookupA_foldl_not_mem (data : List Record) (mets : List String) (k : String)
    (acc : List (String × Int)) (h : k ∉ mets) :
    lookupA (mets.foldl (fun acc m => putAssoc acc m (metricTotal data m)) acc) k
      = lookupA acc k := by
  induction mets generalizing acc with
  | nil => rfl
  | cons m rest ih =>
      have hk : k ≠ m := fun he => h (he ▸ List.mem_cons_self m rest)
      have hr : k ∉ rest := fun hr => h (List.mem_cons_of_mem m hr)
      rw [List.foldl_cons, ih _ hr, lookupA_putAssoc_ne _ _ _ _ hk]

theorem lookupA_metricsOf (data : List Record) (mets : List String) (m : String)
    (h : m ∈ mets) :
    lookupA (metricsOf mets data) m = some (metricTotal data m) := by
  unfold metricsOf
  suffices hs : ∀ acc : List (String × Int),
      lookupA (mets.foldl (fun acc x => putAssoc acc x (metricTotal data x)) acc) m
        = some (metricTotal data m) by
    exact hs []
  induction mets with
  | nil => simp at h
  | cons x rest ih =>
      intro acc
      by_cases hm : m ∈ rest
      · rw [List.foldl_cons]
        exact ih hm _
      · rcases List.mem_cons.mp h with rfl | hcontra
        · rw [List.foldl_cons]
          rw [lookupA_foldl_not_mem data rest m _ hm, lookupA_putAssoc_self]
        · exact absurd hcontra hm

theorem metricTotal_eq_sum (data : List Record) (m : String) :
    metricTotal data m = (data.map (fun r => asNum (getField r m))).sum := by
  rw [metricTotal, List.sum_eq_foldl]

/-! Lemmas about the colored pie slices. -/

theorem length_withColorsAux (i : Nat) (l : List (String × Int)) :
    (withColorsAux i l).length = l.length := by
  induction l generalizing i with
  | nil => rfl
  | cons p ps ih => simp [withColorsAux, ih]

theorem color_withColorsAux (i : Nat) (l : List (String × Int)) (j : Nat)
    (h1 : j < (withColorsAux i l).length) :
    ((withColorsAux i l).get ⟨j, h1⟩).color = colorAt (i + j) := by
  induction l generalizing i j with
  | nil => simp [withColorsAux] at h1
  | cons p ps ih =>
      cases j with
      | zero => simp [withColorsAux]
      | succ j' =>
          have h2 : j' < (withColorsAux (i + 1) ps).length := by
            simpa [withColorsAux] using Nat.lt_of_succ_lt_succ h1
          have := ih (i + 1) j' h2
          simpa [withColorsAux, Nat.add_assoc, Nat.add_comm 1 j'] using this

theorem mapPair_withColorsAux (i : Nat) (l : List (String × Int)) :
    (withColorsAux i l).map (fun s => (s.name, s.value)) = l := by
  induction l generalizing i with
  | nil => rfl
  | cons p ps ih => simp [withColorsAux, ih]

theorem mem_withColorsAux (i : Nat) (l : List (String × Int)) (s : PieSlice)
    (h : s ∈ withColorsAux i l) : (s.name, s.value) ∈ l := by
  have := List.mem_map_of_mem (fun s : PieSlice => (s.name, s.value)) h
  rwa [mapPair_withColorsAux] at this

theorem mapPair_withColors (l : List (String × Int)) :
    (withColors l).map (fun s => (s.name, s.value)) = l :=
  mapPair_withColorsAux 0 l

theorem length_withColors (l : List (String × Int)) :
    (withColors l).length = l.length :=
  length_withColorsAux 0 l

theorem colorD_withColorsAux (l : List (String × Int)) (i j : Nat)
    (h : j < l.length) :
    (((withColorsAux i l).getD j ⟨"", 0, ""⟩)).color = colorAt (i + j) := by
  induction l generalizing i j with
  | nil => simp at h
  | cons p ps ih =>
      cases j with
      | zero => simp [withColorsAux]
      | succ j' =>
          have h2 : j' < ps.length := Nat.lt_of_succ_lt_succ h
          have := ih (i + 1) j' h2
          simpa [withColorsAux, Nat.add_assoc, Nat.add_comm 1 j'] using this

/-! Miscellaneous bridges. -/

theorem head?_filter_eq_find? {α : Type} (p : α → Bool) (l : List α) :
    (l.filter p).head? = l.find? p := by
  induction l with
  | nil => rfl
  | cons x xs ih =>
      by_cases hx : p x
      · rw [List.filter_cons_of_pos hx, List.find?_cons_of_pos _ hx]
        rfl
      · rw [List.filter_cons_of_neg hx, List.find?_cons_of_neg _ hx]
        exact ih

theorem orderedInsert_congr {α : Type} (r r' : α → α → Prop)
    [DecidableRel r] [DecidableRel r'] (a : α) (l : List α)
    (h : ∀ b ∈ l, (r a b ↔ r' a b)) :
    List.orderedInsert r a l = List.orderedInsert r' a l := by
  induction l with
  | nil => rfl
  | cons b bs ih =>
      simp only [List.orderedInsert]
      by_cases hr : r a b
      · rw [if_pos hr, if_pos ((h b (List.mem_cons_self b bs)).mp hr)]
      · rw [if_neg hr, if_neg (fun hc => hr ((h b (List.mem_cons_self b bs)).mpr hc)),
          ih (fun x hx => h x (List.mem_cons_of_mem b hx))]

theorem insertionSort_congr {α : Type} (r r' : α → α → Prop)
    [DecidableRel r] [DecidableRel r'] (l : List α)
    (h : ∀ a ∈ l, ∀ b ∈ l, (r a b ↔ r' a b)) :
    List.insertionSort r l = List.insertionSort r' l := by
  induction l with
  | nil => rfl
  | cons a t ih =>
      simp only [List.insertionSort]
      rw [ih (fun x hx y hy =>
        h x (List.mem_cons_of_mem a hx) y (List.mem_cons_of_mem a hy))]
      apply orderedInsert_congr
      intro b hb
      have hbt : b ∈ t := (List.perm_insertionSort r' t).subset hb
      exact h a (List.mem_cons_self a t) b (List.mem_cons_of_mem a hbt)

theorem jsEntries_perm (l : List (String × Int)) : (jsEntries l).Perm l := by
  unfold jsEntries
  refine List.Perm.trans
    (List.Perm.append (List.perm_insertionSort idxOrder _) (List.Perm.refl _)) ?_
  exact List.filter_append_perm _ l

theorem inferKind_iff (rt : JSRuntime) (key : String) (vals : List Value) :
    (inferKind rt key vals = FType.number ↔ vals.all isNumber = true)
  ∧ (inferKind rt key vals = FType.boolean ↔
      (vals.all isNumber = false ∧ vals.all isBoolean = true))
  ∧ (inferKind rt key vals = FType.date ↔
      (vals.all isNumber = false ∧ vals.all isBoolean = false ∧
        (nameHasDate key = true ∨ isValidDate rt (vals.headD Value.vUndef) = true)))
  ∧ (inferKind rt key vals = FType.string ↔
      (vals.all isNumber = false ∧ vals.all isBoolean = false ∧
        nameHasDate key = false ∧ isValidDate rt (vals.headD Value.vUndef) = false)) := by
  unfold inferKind
  cases h1 : vals.all isNumber <;> cases h2 : vals.all isBoolean <;>
    cases h3 : nameHasDate key <;> cases h4 : isValidDate rt (vals.headD Value.vUndef) <;>
      simp [h1, h2, h3, h4]

theorem mem_filterMap_if {β : Type} (keys : List String) (p : String → Bool)
    (g : String → β) (x : β) :
    (x ∈ keys.filterMap (fun key => if p key then none else some (g key)))
      ↔ ∃ k ∈ keys, p k = false ∧ g k = x := by
  rw [List.mem_filterMap]
  constructor
  · rintro ⟨k, hk, hsome⟩
    by_cases hp : p k
    · rw [if_pos hp] at hsome
      cases hsome
    · rw [if_neg hp] at hsome
      exact ⟨k, hk, by simpa using hp, Option.some.inj hsome⟩
  · rintro ⟨k, hk, hp, hg⟩
    exact ⟨k, hk, by rw [if_neg (by simp [hp]), hg]⟩

theorem map_name_filterMap_if (keys : List String) (p : String → Bool)
    (g : String → FieldInfo) (hg : ∀ k, (g k).name = k) :
    ((keys.filterMap (fun key => if p key then none else some (g key))).map FieldInfo.name)
      = keys.filter (fun k => !p k) := by
  induction keys with
  | nil => rfl
  | cons k ks ih =>
      by_cases hp : p k
      · simp [List.filterMap_cons, List.filter_cons, hp, ih]
      · simp [List.filterMap_cons, List.filter_cons, hp, hg, ih]

/-! Projection lemmas evaluating generateChartData past its guards. -/

theorem generateChartData_not_empty (rt : JSRuntime) (fields : List FieldInfo)
    (pm : String) (pms selDims : List String) (d0 : Record) (drest : List Record) :
    generateChartData rt fields (pm :: pms) selDims (d0 :: drest) =
      (let data := d0 :: drest
       let sortedLine : List (String × Int) :=
         match (dateFieldsOf fields).head? with
         | some df =>
             if df.name ≠ "" ∧ pm ≠ "" then
               List.insertionSort (lineLe rt) (jsEntries (groupLine rt df.name pm data))
             else []
         | none => []
       let pie : List PieSlice :=
         match selDims.head? with
         | some dim =>
             if dim ≠ "" ∧ pm ≠ "" then
               withColors (List.insertionSort descOrder (jsEntries (groupPie dim pm data)))
             else []
         | none => []
       ⟨sortedLine.map (fun p => ⟨p.1, p.2⟩), pie, metricsOf (pm :: pms) data,
         sortedLine.map (fun p => p.1)⟩) := by
  unfold generateChartData
  rw [if_neg (by simp)]
  cases hdf : (dateFieldsOf fields).head? <;> cases hdim : selDims.head? <;> rfl

theorem chart_metrics_cons (rt : JSRuntime) (fields : List FieldInfo)
    (pm : String) (pms selDims : List String) (d0 : Record) (drest : List Record) :
    (generateChartData rt fields (pm :: pms) selDims (d0 :: drest)).metrics
      = metricsOf (pm :: pms) (d0 :: drest) := by
  rw [generateChartData_not_empty]

theorem chart_pie_cons (rt : JSRuntime) (fields : List FieldInfo)
    (pm : String) (pms selDims : List String) (d0 : Record) (drest : List Record)
    (dim : String) (hdim : selDims.head? = some dim) (hd : dim ≠ "") (hm : pm ≠ "") :
    (generateChartData rt fields (pm :: pms) selDims (d0 :: drest)).pieChart
      = withColors (List.insertionSort descOrder (jsEntries (groupPie dim pm (d0 :: drest)))) := by
  rw [generateChartData_not_empty]
  show (match selDims.head? with
        | some dim =>
            if dim ≠ "" ∧ pm ≠ "" then
              withColors (List.insertionSort descOrder (jsEntries (groupPie dim pm (d0 :: drest))))
            else []
        | none => []) = _
  rw [hdim]
  exact if_pos ⟨hd, hm⟩

theorem chart_line_cons (rt : JSRuntime) (fields : List FieldInfo)
    (pm : String) (pms selDims : List String) (d0 : Record) (drest : List Record)
    (df : FieldInfo) (hdf : (dateFieldsOf fields).head? = some df)
    (hn : df.name ≠ "") (hm : pm ≠ "") :
    (generateChartData rt fields (pm :: pms) selDims (d0 :: drest)).lineChart
      = (List.insertionSort (lineLe rt) (jsEntries (groupLine rt df.name pm (d0 :: drest)))).map
          (fun p => ⟨p.1, p.2⟩) := by
  rw [generateChartData_not_empty]
  show ((match (dateFieldsOf fields).head? with
        | some df =>
            if df.name ≠ "" ∧ pm ≠ "" then
              List.insertionSort (lineLe rt) (jsEntries (groupLine rt df.name pm (d0 :: drest)))
            else []
        | none => []).map (fun p : String × Int => (⟨p.1, p.2⟩ : LinePoint))) = _
  rw [hdf]
  exact congrArg _ (if_pos ⟨hn, hm⟩)

theorem chart_cats_cons (rt : JSRuntime) (fields : List FieldInfo)
    (pm : String) (pms selDims : List String) (d0 : Record) (drest : List Record)
    (df : FieldInfo) (hdf : (dateFieldsOf fields).head? = some df)
    (hn : df.name ≠ "") (hm : pm ≠ "") :
    (generateChartData rt fields (pm :: pms) selDims (d0 :: drest)).categories
      = (List.insertionSort (lineLe rt) (jsEntries (groupLine rt df.name pm (d0 :: drest)))).map
          (fun p => p.1) := by
  rw [generateChartData_not_empty]
  show ((match (dateFieldsOf fields).head? with
        | some df =>
            if df.name ≠ "" ∧ pm ≠ "" then
              List.insertionSort (lineLe rt) (jsEntries (groupLine rt df.name pm (d0 :: drest)))
            else []
        | none => []).map (fun p : String × Int => p.1)) = _
  rw [hdf]
  exact congrArg _ (if_pos ⟨hn, hm⟩)

theorem chart_line_cons_degenerate (rt : JSRuntime) (fields : List FieldInfo)
    (pm : String) (pms selDims : List String) (d0 : Record) (drest : List Record)
    (hdeg : (dateFieldsOf fields).head? = none
      ∨ ∃ df, (dateFieldsOf fields).head? = some df ∧ ¬(df.name ≠ "" ∧ pm ≠ "")) :
    (generateChartData rt fields (pm :: pms) selDims (d0 :: drest)).lineChart = [] := by
  rw [generateChartData_not_empty]
  show ((match (dateFieldsOf fields).head? with
        | some df =>
            if df.name ≠ "" ∧ pm ≠ "" then
              List.insertionSort (lineLe rt) (jsEntries (groupLine rt df.name pm (d0 :: drest)))
            else []
        | none => []).map (fun p : String × Int => (⟨p.1, p.2⟩ : LinePoint))) = _
  rcases hdeg with hnone | ⟨df, hsome, hneg⟩
  · rw [hnone]
    rfl
  · rw [hsome]
    exact (congrArg _ (if_neg hneg)).trans (List.map_nil)

/-! The claims. -/

/-- C8: on an empty record array, field inference returns no descriptors,
chart generation returns the all-empty output (empty line chart, pie
chart, metric totals and categories), and the filter engine returns the
empty array; all operations are total, so nothing can crash or throw. -/
theorem C8_empty_dataset (rt : JSRuntime) (fields : List FieldInfo)
    (selMetrics selDims : List String) (now : Int) (tok : String) :
    analyzeDataStructure rt [] = []
  ∧ generateChartData rt fields selMetrics selDims [] = emptyChart
  ∧ (generateChartData rt fields selMetrics selDims []).lineChart = []
  ∧ (generateChartData rt fields selMetrics selDims []).pieChart = []
  ∧ (generateChartData rt fields selMetrics selDims []).metrics = []
  ∧ (generateChartData rt fields selMetrics selDims []).categories = []
  ∧ applyFilters rt now fields tok [] = [] := by
  have hchart : generateChartData rt fields selMetrics selDims [] = emptyChart := rfl
  refine ⟨rfl, hchart, by rw [hchart]; rfl, by rw [hchart]; rfl, by rw [hchart]; rfl,
    by rw [hchart]; rfl, ?_⟩
  unfold applyFilters
  by_cases hc : tok ≠ "" ∧ dateFieldsOf fields ≠ []
  · rw [if_pos hc]
    cases hdf : dateFieldsOf fields with
    | nil => rfl
    | cons df dfs => rfl
  · rw [if_neg hc]

/-- C9: the pie-chart grouping key maps every falsy dimension value (null,
undefined, empty string, the number 0, the boolean false) to the literal
label Unknown, while truthy values group under their own string
representation; a concrete chart whose dimension column holds one of each
falsy value yields the single Unknown segment. -/
theorem C9_falsy_dimension_unknown :
    (∀ v : Value, jsTruthy v = false → pieKey v = "Unknown")
  ∧ (∀ v : Value, jsTruthy v = true → pieKey v = jsToString v)
  ∧ pieKey (Value.vStr "") = "Unknown"
  ∧ pieKey (Value.vNum 0) = "Unknown"
  ∧ pieKey (Value.vBool false) = "Unknown"
  ∧ pieKey Value.vNull = "Unknown"
  ∧ pieKey Value.vUndef = "Unknown"
  ∧ ∀ rt : JSRuntime,
      (generateChartData rt [] ["amt"] ["cat"]
        [[("cat", Value.vStr ""), ("amt", Value.vNum 1)],
         [("cat", Value.vNum 0), ("amt", Value.vNum 2)],
         [("cat", Value.vBool false), ("amt", Value.vNum 3)],
         [("cat", Value.vNull), ("amt", Value.vNum 4)],
         [("cat", Value.vStr "B"), ("amt", Value.vNum 5)]]).pieChart
      = [⟨"Unknown", 10, "#ef4444"⟩, ⟨"B", 5, "#10b981"⟩] := by
  refine ⟨?_, ?_, rfl, rfl, rfl, rfl, rfl, fun rt => rfl⟩
  · intro v hv
    unfold pieKey
    rw [if_neg (by simp [hv])]
    rfl
  · intro v hv
    unfold pieKey
    rw [if_pos (by simp [hv])]

/-- C4: for every selected metric, on nonempty data the per-metric grand
total stored in the chart output equals the sum over all records of that
metric, where a non-numeric value contributes zero. -/
theorem C4_metric_grand_totals (rt : JSRuntime) (fields : List FieldInfo)
    (selDims : List String) (pm : String) (pms : List String)
    (d0 : Record) (drest : List Record) (m : String) (h : m ∈ pm :: pms) :
    lookupA (generateChartData rt fields (pm :: pms) selDims (d0 :: drest)).metrics m
      = some (((d0 :: drest).map (fun r => asNum (getField r m))).sum) := by
  rw [chart_metrics_cons, lookupA_metricsOf _ _ _ h, metricTotal_eq_sum]

/-- C5: every stored sample list has at most 50 entries, its entries are
pairwise distinct, they are a subsequence of the observed column values,
and they are ordered by the index of each value's first occurrence in the
column (first-seen encounter order). -/
theorem C5_sample_invariants (rt : JSRuntime) (data : List Record) (fi : FieldInfo)
    (h : fi ∈ analyzeDataStructure rt data) :
    fi.values.length ≤ 50
  ∧ fi.values.Nodup
  ∧ fi.values.Sublist (colValues data fi.name)
  ∧ fi.values.Pairwise (fun a b =>
      (colValues data fi.name).indexOf a < (colValues data fi.name).indexOf b) := by
  cases data with
  | nil => simp [analyzeDataStructure] at h
  | cons r0 rest =>
      have hdef : analyzeDataStructure rt (r0 :: rest)
          = (recordKeys r0).filterMap (fun key =>
              if (colValues (r0 :: rest) key).isEmpty then none
              else some (⟨key, inferKind rt key (colValues (r0 :: rest) key),
                (jsSetList (colValues (r0 :: rest) key)).take 50⟩ : FieldInfo)) := rfl
      rw [hdef, mem_filterMap_if] at h
      obtain ⟨k, hk, hpk, hgk⟩ := h
      subst hgk
      refine ⟨?_, ?_, ?_, ?_⟩
      · show ((jsSetList (colValues (r0 :: rest) k)).take 50).length ≤ 50
        rw [List.length_take]
        exact min_le_left _ _
      · exact List.Nodup.sublist (List.take_sublist _ _) (nodup_jsSetList _)
      · exact (List.take_sublist _ _).trans (sublist_jsSetList _)
      · exact List.Pairwise.sublist (List.take_sublist _ _) (pairwise_indexOf_jsSetList _)

/-- C6: switching the active dataset always resets the selection state:
the metrics become exactly the first inferred numeric field (or empty),
the dimensions become exactly the first inferred string field with
between 2 and 19 distinct sampled values inclusive (or empty), and the
date-range token is cleared. -/
theorem C6_dataset_switch_resets (rt : JSRuntime) (newData : List Record) :
    (switchDataSet rt newData).metrics
      = ((analyzeDataStructure rt newData).find?
          (fun f => decide (f.type = FType.number))).elim [] (fun f => [f.name])
  ∧ (switchDataSet rt newData).dimensions
      = ((analyzeDataStructure rt newData).find?
          (fun f => decide (f.type = FType.string) && decide (2 ≤ f.values.length) &&
            decide (f.values.length ≤ 19))).elim [] (fun f => [f.name])
  ∧ (switchDataSet rt newData).dateRange = "" := by
  cases newData with
  | nil => exact ⟨rfl, rfl, rfl⟩
  | cons r0 rest =>
      unfold switchDataSet
      rw [if_neg (by simp)]
      refine ⟨?_, ?_, rfl⟩
      · show (match numericFieldsOf (analyzeDataStructure rt (r0 :: rest)) with
              | [] => ([] : List String)
              | f :: _ => [f.name]) = _
        have hfind : (analyzeDataStructure rt (r0 :: rest)).find?
            (fun f => decide (f.type = FType.number))
            = (numericFieldsOf (analyzeDataStructure rt (r0 :: rest))).head? :=
          (head?_filter_eq_find? _ _).symm
        rw [hfind]
        cases numericFieldsOf (analyzeDataStructure rt (r0 :: rest)) with
        | nil => rfl
        | cons f fs => rfl
      · show (match stringFieldsOf (analyzeDataStructure rt (r0 :: rest)) with
              | [] => ([] : List String)
              | f :: _ => [f.name]) = _
        have hfun : (fun f : FieldInfo => decide (f.type = FType.string) &&
              decide (2 ≤ f.values.length) && decide (f.values.length ≤ 19))
            = (fun f : FieldInfo => decide (f.type = FType.string) &&
              decide (f.values.length < 20) && decide (f.values.length > 1)) := by
          funext f
          rw [Bool.eq_iff_iff]
          simp only [Bool.and_eq_true, decide_eq_true_eq]
          constructor
          · rintro ⟨⟨hs, h2⟩, h3⟩
            exact ⟨⟨hs, by omega⟩, by omega⟩
          · rintro ⟨⟨hs, h2⟩, h3⟩
            exact ⟨⟨hs, by omega⟩, by omega⟩
        rw [hfun]
        have hfind : (analyzeDataStructure rt (r0 :: rest)).find?
            (fun f : FieldInfo => decide (f.type = FType.string) &&
              decide (f.values.length < 20) && decide (f.values.length > 1))
            = (stringFieldsOf (analyzeDataStructure rt (r0 :: rest))).head? :=
          (head?_filter_eq_find? _ _).symm
        rw [hfind]
        cases stringFieldsOf (analyzeDataStructure rt (r0 :: rest)) with
        | nil => rfl
        | cons f fs => rfl

/-- C1: on nonempty data, field inference yields descriptors for exactly
the keys of the first record having at least one present value across the
records, in key order; a field present only in later records never
appears; and each descriptor's kind is settled by the ordered checks
all-numeric, all-boolean, date-like name or ISO-date first value, else
string — a classification that is total and mutually exclusive. -/
theorem C1_field_inference (rt : JSRuntime) (r0 : Record) (rest : List Record) :
    ((analyzeDataStructure rt (r0 :: rest)).map FieldInfo.name
       = (recordKeys r0).filter (fun k => !(colValues (r0 :: rest) k).isEmpty))
  ∧ (∀ fi ∈ analyzeDataStructure rt (r0 :: rest), fi.name ∈ recordKeys r0)
  ∧ (∀ k, k ∉ recordKeys r0 →
      ∀ fi ∈ analyzeDataStructure rt (r0 :: rest), fi.name ≠ k)
  ∧ (∀ fi ∈ analyzeDataStructure rt (r0 :: rest),
      ((fi.type = FType.number ↔ (colValues (r0 :: rest) fi.name).all isNumber = true)
     ∧ (fi.type = FType.boolean ↔
          ((colValues (r0 :: rest) fi.name).all isNumber = false ∧
           (colValues (r0 :: rest) fi.name).all isBoolean = true))
     ∧ (fi.type = FType.date ↔
          ((colValues (r0 :: rest) fi.name).all isNumber = false ∧
           (colValues (r0 :: rest) fi.name).all isBoolean = false ∧
           (nameHasDate fi.name = true ∨
            isValidDate rt ((colValues (r0 :: rest) fi.name).headD Value.vUndef) = true)))
     ∧ (fi.type = FType.string ↔
          ((colValues (r0 :: rest) fi.name).all isNumber = false ∧
           (colValues (r0 :: rest) fi.name).all isBoolean = false ∧
           nameHasDate fi.name = false ∧
           isValidDate rt ((colValues (r0 :: rest) fi.name).headD Value.vUndef) = false)))) := by
  have hdef : analyzeDataStructure rt (r0 :: rest)
      = (recordKeys r0).filterMap (fun key =>
          if (colValues (r0 :: rest) key).isEmpty then none
          else some (⟨key, inferKind rt key (colValues (r0 :: rest) key),
            (jsSetList (colValues (r0 :: rest) key)).take 50⟩ : FieldInfo)) := rfl
  refine ⟨?_, ?_, ?_, ?_⟩
  · rw [hdef]
    exact map_name_filterMap_if _ _ _ (fun k => rfl)
  · intro fi hfi
    rw [hdef, mem_filterMap_if] at hfi
    obtain ⟨k, hk, _, hg⟩ := hfi
    subst hg
    exact hk
  · intro k hk fi hfi heq
    rw [hdef, mem_filterMap_if] at hfi
    obtain ⟨k0, hk0, _, hg⟩ := hfi
    subst hg
    have hkk : k0 = k := heq
    exact hk (hkk ▸ hk0)
  · intro fi hfi
    rw [hdef, mem_filterMap_if] at hfi
    obtain ⟨k, hk, hp, hg⟩ := hfi
    subst hg
    exact inferKind_iff rt k (colValues (r0 :: rest) k)

/-- Membership characterization of the date-range filter when a token is
selected and a date field exists: exactly the records whose parsed date
lies in the closed interval from the cutoff to now are kept. -/
theorem applyFilters_mem_iff (rt : JSRuntime) (now : Int) (fields : List FieldInfo)
    (tok : String) (data : List Record) (df : FieldInfo) (dfs : List FieldInfo)
    (hdf : dateFieldsOf fields = df :: dfs) (htok : tok ≠ "") (r : Record) :
    r ∈ applyFilters rt now fields tok data
      ↔ r ∈ data ∧ ∃ t, rt.parse (jsToString (getField r df.name)) = some t ∧
          cutoffFor now tok ≤ t ∧ t ≤ now := by
  unfold applyFilters
  rw [if_pos ⟨htok, by rw [hdf]; exact List.cons_ne_nil df dfs⟩, hdf]
  rw [List.mem_filter]
  constructor
  · rintro ⟨hd, hpred⟩
    refine ⟨hd, ?_⟩
    cases hp : rt.parse (jsToString (getField r df.name)) with
    | none =>
        rw [hp] at hpred
        simp at hpred
    | some t =>
        rw [hp] at hpred
        simp only [Bool.and_eq_true, decide_eq_true_eq] at hpred
        exact ⟨t, rfl, hpred.1, hpred.2⟩
  · rintro ⟨hd, t, hp, h1, h2⟩
    refine ⟨hd, ?_⟩
    rw [hp]
    simp [h1, h2]

/-- C2: the filter engine is the identity when no date-range token is
selected or no date field was inferred; otherwise it uses only the first
inferred date field and keeps exactly the records whose parsed date lies
in the closed interval from now minus the token's duration (7, 30 or 90
days, or one calendar year) to now; a record dated exactly now is kept
under last-7-days, a record dated 8 days ago is not, and a record whose
date does not parse is never kept. -/
theorem C2_filter_engine (rt : JSRuntime) (now : Int) (fields : List FieldInfo)
    (tok : String) (data : List Record) :
    (tok = "" → applyFilters rt now fields tok data = data)
  ∧ (dateFieldsOf fields = [] → applyFilters rt now fields tok data = data)
  ∧ (∀ df dfs, dateFieldsOf fields = df :: dfs →
      ((∀ r, r ∈ applyFilters rt now fields "last-7-days" data ↔
          r ∈ data ∧ ∃ t, rt.parse (jsToString (getField r df.name)) = some t ∧
            now - 7 * msPerDay ≤ t ∧ t ≤ now)
     ∧ (∀ r, r ∈ applyFilters rt now fields "last-30-days" data ↔
          r ∈ data ∧ ∃ t, rt.parse (jsToString (getField r df.name)) = some t ∧
            now - 30 * msPerDay ≤ t ∧ t ≤ now)
     ∧ (∀ r, r ∈ applyFilters rt now fields "last-90-days" data ↔
          r ∈ data ∧ ∃ t, rt.parse (jsToString (getField r df.name)) = some t ∧
            now - 90 * msPerDay ≤ t ∧ t ≤ now)
     ∧ (∀ r, r ∈ applyFilters rt now fields "last-year" data ↔
          r ∈ data ∧ ∃ t, rt.parse (jsToString (getField r df.name)) = some t ∧
            subYearMs now ≤ t ∧ t ≤ now)
     ∧ (∀ r, r ∈ data → rt.parse (jsToString (getField r df.name)) = some now →
          r ∈ applyFilters rt now fields "last-7-days" data)
     ∧ (∀ r, rt.parse (jsToString (getField r df.name)) = some (now - 8 * msPerDay) →
          r ∉ applyFilters rt now fields "last-7-days" data)
     ∧ (∀ r, tok ≠ "" → rt.parse (jsToString (getField r df.name)) = none →
          r ∉ applyFilters rt now fields tok data))) := by
  refine ⟨?_, ?_, ?_⟩
  · intro h
    unfold applyFilters
    rw [if_neg (by simp [h])]
  · intro h
    unfold applyFilters
    rw [if_neg (by simp [h])]
  · intro df dfs hdf
    have hc7 : cutoffFor now "last-7-days" = now - 7 * msPerDay := rfl
    have hc30 : cutoffFor now "last-30-days" = now - 30 * msPerDay := rfl
    have hc90 : cutoffFor now "last-90-days" = now - 90 * msPerDay := rfl
    have hcy : cutoffFor now "last-year" = subYearMs now := rfl
    refine ⟨?_, ?_, ?_, ?_, ?_, ?_, ?_⟩
    · intro r
      rw [applyFilters_mem_iff rt now fields _ data df dfs hdf (by decide) r, hc7]
    · intro r
      rw [applyFilters_mem_iff rt now fields _ data df dfs hdf (by decide) r, hc30]
    · intro r
      rw [applyFilters_mem_iff rt now fields _ data df dfs hdf (by decide) r, hc90]
    · intro r
      rw [applyFilters_mem_iff rt now fields _ data df dfs hdf (by decide) r, hcy]
    · intro r hr hp
      rw [applyFilters_mem_iff rt now fields _ data df dfs hdf (by decide) r, hc7]
      refine ⟨hr, now, hp, ?_, le_refl now⟩
      simp only [msPerDay]
      omega
    · intro r hp hmem
      rw [applyFilters_mem_iff rt now fields _ data df dfs hdf (by decide) r, hc7] at hmem
      obtain ⟨_, t, hp2, h1, _⟩ := hmem
      rw [hp] at hp2
      have ht : t = now - 8 * msPerDay := (Option.some.inj hp2).symm
      subst ht
      simp only [msPerDay] at h1
      omega
    · intro r htok hp hmem
      rw [applyFilters_mem_iff rt now fields tok data df dfs hdf htok r] at hmem
      obtain ⟨_, t, hp2, _⟩ := hmem
      rw [hp] at hp2
      cases hp2

/-- C3 (amended): the pie chart is ordered descending by summed metric
value; each segment value is the sum of the primary metric over the
records of its group (non-numeric values as zero, falsy dimension values
grouped under Unknown); the segment names are the group keys; ties keep
the Object.entries enumeration order of the groups — group labels that
are canonical array indices (numeric strings) enumerate first in
ascending numeric order, and in particular two tied groups with ordinary
non-array-index labels always retain their encounter order; every
segment color is the palette entry at its index modulo 8; and the
specification scenario (records A:10, B:30, A:5) yields exactly segments
B:30 then A:15 with total 45. -/
theorem C3_pie_chart (rt : JSRuntime) (fields : List FieldInfo)
    (pm dim : String) (pms dims : List String) (d0 : Record) (drest : List Record)
    (hpm : pm ≠ "") (hdim : dim ≠ "") :
    ((generateChartData rt fields (pm :: pms) (dim :: dims) (d0 :: drest)).pieChart.Pairwise
        (fun s t => t.value ≤ s.value))
  ∧ (∀ s ∈ (generateChartData rt fields (pm :: pms) (dim :: dims) (d0 :: drest)).pieChart,
        s.value = bucketSum (pieContribs dim pm (d0 :: drest)) s.name)
  ∧ (((generateChartData rt fields (pm :: pms) (dim :: dims) (d0 :: drest)).pieChart.map
        PieSlice.name).Perm (jsSetList ((pieContribs dim pm (d0 :: drest)).map Prod.fst)))
  ∧ (∀ p q : String × Int, p.2 = q.2 →
        [p, q].Sublist (jsEntries (groupPie dim pm (d0 :: drest))) →
        [p, q].Sublist
          ((generateChartData rt fields (pm :: pms) (dim :: dims) (d0 :: drest)).pieChart.map
            (fun s => (s.name, s.value))))
  ∧ (∀ p q : String × Int, arrayIndex? p.1 = none → arrayIndex? q.1 = none → p.2 = q.2 →
        [p, q].Sublist (groupPie dim pm (d0 :: drest)) →
        [p, q].Sublist
          ((generateChartData rt fields (pm :: pms) (dim :: dims) (d0 :: drest)).pieChart.map
            (fun s => (s.name, s.value))))
  ∧ (∀ i, i < (generateChartData rt fields (pm :: pms) (dim :: dims) (d0 :: drest)).pieChart.length →
        ((generateChartData rt fields (pm :: pms) (dim :: dims) (d0 :: drest)).pieChart.getD i
            ⟨"", 0, ""⟩).color = COLORS.getD (i % 8) "")
  ∧ ((generateChartData rt (analyzeDataStructure jsRT pieSample) ["amt"] ["cat"]
        pieSample).pieChart = [⟨"B", 30, "#ef4444"⟩, ⟨"A", 15, "#10b981"⟩])
  ∧ ((generateChartData rt (analyzeDataStructure jsRT pieSample) ["amt"] ["cat"]
        pieSample).metrics = [("amt", 45)]) := by
  have hpie := chart_pie_cons rt fields pm pms (dim :: dims) d0 drest dim rfl hdim hpm
  have htie : ∀ p q : String × Int, p.2 = q.2 →
      [p, q].Sublist (jsEntries (groupPie dim pm (d0 :: drest))) →
      [p, q].Sublist
        ((generateChartData rt fields (pm :: pms) (dim :: dims) (d0 :: drest)).pieChart.map
          (fun s => (s.name, s.value))) := by
    intro p q hpq hsub
    rw [hpie, mapPair_withColors]
    have hc : ([p, q] : List (String × Int)).Pairwise descOrder := by
      constructor
      · intro b hb
        rcases List.mem_singleton.mp hb with rfl
        exact hpq.ge
      · exact List.pairwise_singleton _ _
    exact List.sublist_insertionSort hc hsub
  refine ⟨?_, ?_, ?_, htie, ?_, ?_, rfl, rfl⟩
  · rw [hpie]
    have hs : (List.insertionSort descOrder
        (jsEntries (groupPie dim pm (d0 :: drest)))).Pairwise descOrder :=
      List.sorted_insertionSort descOrder _
    have hmp := mapPair_withColors
      (List.insertionSort descOrder (jsEntries (groupPie dim pm (d0 :: drest))))
    rw [← hmp] at hs
    exact List.pairwise_map.mp hs
  · rw [hpie]
    intro s hs
    have hm : (s.name, s.value)
        ∈ List.insertionSort descOrder (jsEntries (groupPie dim pm (d0 :: drest))) :=
      mem_withColorsAux 0 _ s hs
    have hm2 : (s.name, s.value) ∈ groupPie dim pm (d0 :: drest) :=
      (jsEntries_perm _).subset ((List.perm_insertionSort descOrder _).subset hm)
    rw [groupPie_eq] at hm2
    exact mem_assocFold _ _ hm2
  · rw [hpie]
    have h1 : (withColors (List.insertionSort descOrder
          (jsEntries (groupPie dim pm (d0 :: drest))))).map PieSlice.name
        = (List.insertionSort descOrder
            (jsEntries (groupPie dim pm (d0 :: drest)))).map Prod.fst := by
      calc (withColors (List.insertionSort descOrder
              (jsEntries (groupPie dim pm (d0 :: drest))))).map PieSlice.name
          = ((withColors (List.insertionSort descOrder
              (jsEntries (groupPie dim pm (d0 :: drest))))).map
              (fun s => (s.name, s.value))).map Prod.fst := by
            rw [List.map_map]
            exact List.map_congr_left (fun s _ => rfl)
        _ = (List.insertionSort descOrder
              (jsEntries (groupPie dim pm (d0 :: drest)))).map Prod.fst := by
            rw [mapPair_withColors]
    rw [h1]
    refine (((List.perm_insertionSort _ _).map _).trans ((jsEntries_perm _).map _)).trans ?_
    rw [groupPie_eq, assocFold_keys]
  · intro p q hpi hqi hpq hsub
    have h2 := List.Sublist.filter (fun x : String × Int => !(arrayIndex? x.1).isSome) hsub
    have h3 : ([p, q] : List (String × Int)).filter
        (fun x => !(arrayIndex? x.1).isSome) = [p, q] := by
      simp [hpi, hqi]
    rw [h3] at h2
    exact htie p q hpq (h2.trans (List.sublist_append_right _ _))
  · intro i hi
    rw [hpie] at hi ⊢
    have hlen : i < (List.insertionSort descOrder
        (jsEntries (groupPie dim pm (d0 :: drest)))).length := by
      rw [← length_withColors]
      exact hi
    have hcol := colorD_withColorsAux
      (List.insertionSort descOrder (jsEntries (groupPie dim pm (d0 :: drest)))) 0 i hlen
    rw [Nat.zero_add] at hcol
    have h8 : colorAt i = COLORS.getD (i % 8) "" := rfl
    rw [← h8]
    exact hcol

/-- C3 counterexample: with tied sums and a numeric-string group label,
Object.entries enumerates the array-index-like label "5" before the
earlier-encountered label "x", and the stable descending sort keeps that
order, so the tied groups do not retain encounter order as originally
claimed. -/
theorem C3_pie_chart_counterexample :
    ((("x" : String), (7 : Int)).2 = (("5" : String), (7 : Int)).2)
  ∧ [(("x" : String), (7 : Int)), ("5", 7)].Sublist (groupPie "cat" "amt" tieSample)
  ∧ ((generateChartData jsRT (analyzeDataStructure jsRT tieSample) ["amt"] ["cat"]
        tieSample).pieChart.map (fun s => (s.name, s.value)) = [("5", 7), ("x", 7)])
  ∧ ¬ [(("x" : String), (7 : Int)), ("5", 7)].Sublist
      ((generateChartData jsRT (analyzeDataStructure jsRT tieSample) ["amt"] ["cat"]
        tieSample).pieChart.map (fun s => (s.name, s.value))) :=
  ⟨rfl, by decide, by decide, by decide⟩

/-- C7 (amended): with a date field and a primary metric, the line-chart
buckets are exactly the first-seen month-year labels of the truthy-date
records, each bucket value is the sum of the primary metric over the
records whose label it is (non-numeric values as zero), and — provided
every bucket label parses back as a date — the buckets are ordered
ascending by their label re-parsed as a date (with an Invalid Date
bucket the comparator is inconsistent and bucket order is
implementation-defined); the categories list repeats the bucket labels
in chart order. -/
theorem C7_time_series (rt : JSRuntime) (fields : List FieldInfo)
    (pm : String) (pms selDims : List String) (d0 : Record) (drest : List Record)
    (df : FieldInfo) (hdf : (dateFieldsOf fields).head? = some df)
    (hn : df.name ≠ "") (hm : pm ≠ "") :
    (((generateChartData rt fields (pm :: pms) selDims (d0 :: drest)).lineChart.map
        LinePoint.x).Perm (jsSetList ((lineContribs rt df.name pm (d0 :: drest)).map Prod.fst)))
  ∧ (∀ p ∈ (generateChartData rt fields (pm :: pms) selDims (d0 :: drest)).lineChart,
        p.y = bucketSum (lineContribs rt df.name pm (d0 :: drest)) p.x)
  ∧ ((∀ p ∈ (generateChartData rt fields (pm :: pms) selDims (d0 :: drest)).lineChart,
        (rt.parse p.x).isSome = true) →
      (generateChartData rt fields (pm :: pms) selDims (d0 :: drest)).lineChart.Pairwise
        (fun p q => ∀ ta tb, rt.parse p.x = some ta → rt.parse q.x = some tb → ta ≤ tb))
  ∧ ((generateChartData rt fields (pm :: pms) selDims (d0 :: drest)).categories
        = (generateChartData rt fields (pm :: pms) selDims (d0 :: drest)).lineChart.map
            LinePoint.x) := by
  have hline := chart_line_cons rt fields pm pms selDims d0 drest df hdf hn hm
  have hcats := chart_cats_cons rt fields pm pms selDims d0 drest df hdf hn hm
  refine ⟨?_, ?_, ?_, ?_⟩
  · rw [hline, List.map_map]
    have hxy : (LinePoint.x ∘ fun p : String × Int => (⟨p.1, p.2⟩ : LinePoint)) = Prod.fst :=
      rfl
    rw [hxy]
    refine (((List.perm_insertionSort _ _).map _).trans ((jsEntries_perm _).map _)).trans ?_
    rw [groupLine_eq, assocFold_keys]
  · intro p hp
    rw [hline] at hp
    obtain ⟨pr, hpr, hmk⟩ := List.mem_map.mp hp
    have h2 : pr ∈ groupLine rt df.name pm (d0 :: drest) :=
      (jsEntries_perm _).subset ((List.perm_insertionSort _ _).subset hpr)
    rw [groupLine_eq] at h2
    have h3 := mem_assocFold _ _ h2
    rw [← hmk]
    exact h3
  · intro hall
    rw [hline] at hall ⊢
    have hallE : ∀ x ∈ jsEntries (groupLine rt df.name pm (d0 :: drest)),
        (rt.parse x.1).isSome = true := by
      intro x hx
      have hx2 : x ∈ List.insertionSort (lineLe rt)
          (jsEntries (groupLine rt df.name pm (d0 :: drest))) :=
        (List.perm_insertionSort (lineLe rt) _).symm.subset hx
      exact hall _ (List.mem_map_of_mem _ hx2)
    have hcongr : List.insertionSort (lineLe rt)
          (jsEntries (groupLine rt df.name pm (d0 :: drest)))
        = List.insertionSort (timeOrder rt)
            (jsEntries (groupLine rt df.name pm (d0 :: drest))) := by
      apply insertionSort_congr
      intro a ha b hb
      obtain ⟨ta, hta⟩ := Option.isSome_iff_exists.mp (hallE a ha)
      obtain ⟨tb, htb⟩ := Option.isSome_iff_exists.mp (hallE b hb)
      unfold lineLe sortCompareLe timeOrder timeKeyOf
      rw [hta, htb]
      simp
    rw [hcongr]
    have hs := List.sorted_insertionSort (timeOrder rt)
      (jsEntries (groupLine rt df.name pm (d0 :: drest)))
    refine List.pairwise_map.mpr (hs.imp ?_)
    intro a b hab
    intro ta tb hpa hpb
    have hab2 : timeKeyOf rt a.1 ≤ timeKeyOf rt b.1 := hab
    have ha : timeKeyOf rt a.1 = ta := by
      unfold timeKeyOf
      rw [show rt.parse a.1 = some ta from hpa]
      rfl
    have hb : timeKeyOf rt b.1 = tb := by
      unfold timeKeyOf
      rw [show rt.parse b.1 = some tb from hpb]
      rfl
    rw [ha, hb] at hab2
    exact hab2
  · rw [hcats, hline, List.map_map]
    rfl

/-- C7 counterexample: a truthy unparseable date value creates an
Invalid Date bucket whose comparisons count as equal, and the stable
sort then leaves May 24 ahead of Jan 24, so the chart is not ordered
ascending by re-parsed label as originally claimed. -/
theorem C7_time_series_counterexample :
    ¬ ((generateChartData jsRT (analyzeDataStructure jsRT mixedDates) ["amt"] []
        mixedDates).lineChart.Pairwise
        (fun p q => ∀ ta tb, jsRT.parse p.x = some ta → jsRT.parse q.x = some tb → ta ≤ tb)) := by
  intro hpw
  have hlist : (generateChartData jsRT (analyzeDataStructure jsRT mixedDates) ["amt"] []
      mixedDates).lineChart
      = [⟨"May 24", 5⟩, ⟨"Invalid Date", 7⟩, ⟨"Jan 24", 3⟩] := by decide
  rw [hlist] at hpw
  have h1 := (List.pairwise_cons.mp hpw).1 ⟨"Jan 24", 3⟩ (by decide)
  have h2 := h1 1714521600000 1704067200000 (by decide) (by decide)
  exact absurd h2 (by decide)

/-- C10: a record whose date value is falsy is skipped by the time-series
bucketing (the grouping of any record set equals the grouping of its
truthy-date subset, and so does the resulting line chart), while such a
record still counts toward the per-metric grand totals; on the sample
with a single empty-string date and metric 10 the line-chart values sum
to 0, strictly less than the grand total 10. -/
theorem C10_falsy_date_skipped :
    (∀ (rt : JSRuntime) (dfName pm : String) (data : List Record),
        groupLine rt dfName pm data
          = groupLine rt dfName pm (data.filter (fun r => jsTruthy (getField r dfName))))
  ∧ (∀ (rt : JSRuntime) (fields : List FieldInfo) (pm : String) (pms selDims : List String)
        (data : List Record) (df : FieldInfo),
        (dateFieldsOf fields).head? = some df →
        (generateChartData rt fields (pm :: pms) selDims data).lineChart
          = (generateChartData rt fields (pm :: pms) selDims
              (data.filter (fun r => jsTruthy (getField r df.name)))).lineChart)
  ∧ (((generateChartData jsRT (analyzeDataStructure jsRT falsyDateSample) ["amt"] []
        falsyDateSample).lineChart.map LinePoint.y).sum = 0)
  ∧ (lookupA (generateChartData jsRT (analyzeDataStructure jsRT falsyDateSample) ["amt"] []
        falsyDateSample).metrics "amt" = some 10)
  ∧ (((generateChartData jsRT (analyzeDataStructure jsRT falsyDateSample) ["amt"] []
        falsyDateSample).lineChart.map LinePoint.y).sum < 10) := by
  refine ⟨?_, ?_, by decide, by decide, by decide⟩
  · intro rt dfName pm data
    exact groupLine_skips_falsy rt dfName pm data
  · intro rt fields pm pms selDims data df hdf
    cases data with
    | nil => rfl
    | cons d0 drest =>
        by_cases hdeg : df.name ≠ "" ∧ pm ≠ ""
        · rw [chart_line_cons rt fields pm pms selDims d0 drest df hdf hdeg.1 hdeg.2]
          cases hfl : (d0 :: drest).filter (fun r => jsTruthy (getField r df.name)) with
          | nil =>
              rw [groupLine_skips_falsy, hfl]
              rfl
          | cons e0 erest =>
              rw [groupLine_skips_falsy rt df.name pm (d0 :: drest), hfl,
                chart_line_cons rt fields pm pms selDims e0 erest df hdf hdeg.1 hdeg.2]
        · rw [chart_line_cons_degenerate rt fields pm pms selDims d0 drest
            (Or.inr ⟨df, hdf, hdeg⟩)]
          cases hfl : (d0 :: drest).filter (fun r => jsTruthy (getField r df.name)) with
          | nil => rfl
          | cons e0 erest =>
              rw [chart_line_cons_degenerate rt fields pm pms selDims e0 erest
                (Or.inr ⟨df, hdf, hdeg⟩)]

/-! Witnesses: each claim theorem applied at an explicit concrete input. -/

/-- Witness for C1 on the pie sample records. -/
theorem C1_field_inference_witness :
    (analyzeDataStructure jsRT pieSample).map FieldInfo.name
      = (recordKeys [("cat", Value.vStr "A"), ("amt", Value.vNum 10)]).filter
          (fun k => !(colValues pieSample k).isEmpty) :=
  (C1_field_inference jsRT [("cat", Value.vStr "A"), ("amt", Value.vNum 10)]
    [[("cat", Value.vStr "B"), ("amt", Value.vNum 30)],
     [("cat", Value.vStr "A"), ("amt", Value.vNum 5)]]).1

/-- Witness for C2 on the dated sample at now = 2024-06-15T00:00Z: the
record dated exactly now is kept under last-7-days, the record dated
eight days earlier is dropped, and the unparseable record is dropped. -/
theorem C2_filter_engine_witness :
    (([("date", Value.vStr "2024-06-15"), ("amt", Value.vNum 10)] : Record)
        ∈ applyFilters jsRT 1718409600000 (analyzeDataStructure jsRT datesSample)
            "last-7-days" datesSample)
  ∧ (([("date", Value.vStr "2024-06-07"), ("amt", Value.vNum 3)] : Record)
        ∉ applyFilters jsRT 1718409600000 (analyzeDataStructure jsRT datesSample)
            "last-7-days" datesSample)
  ∧ (([("date", Value.vStr "nonsense"), ("amt", Value.vNum 100)] : Record)
        ∉ applyFilters jsRT 1718409600000 (analyzeDataStructure jsRT datesSample)
            "last-7-days" datesSample) := by
  have h := (C2_filter_engine jsRT 1718409600000 (analyzeDataStructure jsRT datesSample)
    "last-7-days" datesSample).2.2
    ⟨"date", FType.date, [Value.vStr "2024-06-15", Value.vStr "2024-06-07",
      Value.vStr "nonsense", Value.vStr "2024-06-01"]⟩ [] (by decide)
  refine ⟨?_, ?_, ?_⟩
  · exact h.2.2.2.2.1 _ (by decide) (by decide)
  · exact h.2.2.2.2.2.1 _ (by decide)
  · exact h.2.2.2.2.2.2 _ (by decide) (by decide)

/-- Witness for C3 through the specification scenario conjunct. -/
theorem C3_pie_chart_witness :
    ("amt" : String) ≠ "" ∧ ("cat" : String) ≠ ""
  ∧ (generateChartData jsRT (analyzeDataStructure jsRT pieSample) ["amt"] ["cat"]
      pieSample).pieChart = [⟨"B", 30, "#ef4444"⟩, ⟨"A", 15, "#10b981"⟩] :=
  ⟨by decide, by decide,
    (C3_pie_chart jsRT [] "amt" "cat" [] [] [("cat", Value.vStr "A"), ("amt", Value.vNum 10)]
      [[("cat", Value.vStr "B"), ("amt", Value.vNum 30)],
       [("cat", Value.vStr "A"), ("amt", Value.vNum 5)]]
      (by decide) (by decide)).2.2.2.2.2.2.1⟩

/-- Witness for C4: the amt grand total on the pie sample. -/
theorem C4_metric_grand_totals_witness :
    (("amt" : String) ∈ ["amt"])
  ∧ lookupA (generateChartData jsRT (analyzeDataStructure jsRT pieSample) ["amt"] ["cat"]
        pieSample).metrics "amt"
      = some ((pieSample.map (fun r => asNum (getField r "amt"))).sum) :=
  ⟨by decide,
    C4_metric_grand_totals jsRT (analyzeDataStructure jsRT pieSample) ["cat"] "amt" []
      [("cat", Value.vStr "A"), ("amt", Value.vNum 10)]
      [[("cat", Value.vStr "B"), ("amt", Value.vNum 30)],
       [("cat", Value.vStr "A"), ("amt", Value.vNum 5)]] "amt" (by decide)⟩

/-- Witness for C5 on the cat descriptor of the pie sample. -/
theorem C5_sample_invariants_witness :
    ((⟨"cat", FType.string, [Value.vStr "A", Value.vStr "B"]⟩ : FieldInfo)
        ∈ analyzeDataStructure jsRT pieSample)
  ∧ ((⟨"cat", FType.string, [Value.vStr "A", Value.vStr "B"]⟩ : FieldInfo).values.length ≤ 50
    ∧ (⟨"cat", FType.string, [Value.vStr "A", Value.vStr "B"]⟩ : FieldInfo).values.Nodup
    ∧ (⟨"cat", FType.string, [Value.vStr "A", Value.vStr "B"]⟩ : FieldInfo).values.Sublist
        (colValues pieSample "cat")
    ∧ (⟨"cat", FType.string, [Value.vStr "A", Value.vStr "B"]⟩ : FieldInfo).values.Pairwise
        (fun a b => (colValues pieSample "cat").indexOf a < (colValues pieSample "cat").indexOf b)) :=
  ⟨by decide, C5_sample_invariants jsRT pieSample _ (by decide)⟩

/-- Witness for C6 on the pie sample. -/
theorem C6_dataset_switch_resets_witness :
    (switchDataSet jsRT pieSample).metrics
      = ((analyzeDataStructure jsRT pieSample).find?
          (fun f => decide (f.type = FType.number))).elim [] (fun f => [f.name]) :=
  (C6_dataset_switch_resets jsRT pieSample).1

/-- Witness for C7 on the dated sample (per-bucket sums) and on the
all-parseable sample (guarded ascending order, hypothesis discharged
concretely). -/
theorem C7_time_series_witness :
    ((dateFieldsOf (analyzeDataStructure jsRT datesSample)).head?
        = some ⟨"date", FType.date, [Value.vStr "2024-06-15", Value.vStr "2024-06-07",
            Value.vStr "nonsense", Value.vStr "2024-06-01"]⟩)
  ∧ (("date" : String) ≠ "") ∧ (("amt" : String) ≠ "")
  ∧ (∀ p ∈ (generateChartData jsRT (analyzeDataStructure jsRT datesSample) ["amt"] []
        datesSample).lineChart,
      p.y = bucketSum (lineContribs jsRT "date" "amt" datesSample) p.x)
  ∧ (∀ p ∈ (generateChartData jsRT (analyzeDataStructure jsRT cleanDates) ["amt"] []
        cleanDates).lineChart, (jsRT.parse p.x).isSome = true)
  ∧ (generateChartData jsRT (analyzeDataStructure jsRT cleanDates) ["amt"] []
        cleanDates).lineChart.Pairwise
      (fun p q => ∀ ta tb, jsRT.parse p.x = some ta → jsRT.parse q.x = some tb → ta ≤ tb) :=
  ⟨by decide, by decide, by decide,
    (C7_time_series jsRT (analyzeDataStructure jsRT datesSample) "amt" [] []
      [("date", Value.vStr "2024-06-15"), ("amt", Value.vNum 10)]
      [[("date", Value.vStr "2024-06-07"), ("amt", Value.vNum 3)],
       [("date", Value.vStr "nonsense"), ("amt", Value.vNum 100)],
       [("date", Value.vStr "2024-06-01"), ("amt", Value.vNum 7)]]
      ⟨"date", FType.date, [Value.vStr "2024-06-15", Value.vStr "2024-06-07",
        Value.vStr "nonsense", Value.vStr "2024-06-01"]⟩
      (by decide) (by decide) (by decide)).2.1,
    by decide,
    (C7_time_series jsRT (analyzeDataStructure jsRT cleanDates) "amt" [] []
      [("date", Value.vStr "2024-06-15"), ("amt", Value.vNum 10)]
      [[("date", Value.vStr "2024-05-01"), ("amt", Value.vNum 3)],
       [("date", Value.vStr "2024-06-01"), ("amt", Value.vNum 7)]]
      ⟨"date", FType.date, [Value.vStr "2024-06-15", Value.vStr "2024-05-01",
        Value.vStr "2024-06-01"]⟩
      (by decide) (by decide) (by decide)).2.2.1 (by decide)⟩

/-- Witness for C8 on the empty dataset. -/
theorem C8_empty_dataset_witness :
    applyFilters jsRT 0 [] "" [] = [] :=
  (C8_empty_dataset jsRT [] [] [] 0 "").2.2.2.2.2.2

/-- Witness for C9 at the falsy dimension value 0. -/
theorem C9_falsy_dimension_unknown_witness :
    jsTruthy (Value.vNum 0) = false ∧ pieKey (Value.vNum 0) = "Unknown" :=
  ⟨by decide, C9_falsy_dimension_unknown.1 (Value.vNum 0) (by decide)⟩

/-- Witness for C10 on the falsy-date sample: dropping the falsy-date
record does not change the line chart. -/
theorem C10_falsy_date_skipped_witness :
    ((dateFieldsOf (analyzeDataStructure jsRT falsyDateSample)).head?
        = some ⟨"date", FType.date, [Value.vStr ""]⟩)
  ∧ (generateChartData jsRT (analyzeDataStructure jsRT falsyDateSample) ["amt"] []
        falsyDateSample).lineChart
      = (generateChartData jsRT (analyzeDataStructure jsRT falsyDateSample) ["amt"] []
          (falsyDateSample.filter (fun r => jsTruthy (getField r "date")))).lineChart :=
  ⟨by decide,
    C10_falsy_date_skipped.2.1 jsRT (analyzeDataStructure jsRT falsyDateSample) "amt" [] []
      falsyDateSample ⟨"date", FType.date, [Value.vStr ""]⟩ (by decide)⟩

end Quantivo
